import Mathlib

/-!
# NetworkLock: the MQTT bridge of the lock

A shallow embedding of `src/NetworkLock.cpp`.  The object's members become the fields of
the structure `NetworkLock`; every member function becomes a function taking the object
and returning the new object together with the list of calls it made on its
collaborators (`Effect`), in program order.  Output on `Log` and `delay` are left out of
that list.
-/

namespace NukiHub

/-! ## Collaborators that are not part of `NetworkLock.cpp` -/

/-- Topic suffixes named in `NetworkLock.cpp`.  They are string literals defined by macros of
`MqttTopics.h`, which is not among the sources, so the catalog is a parameter of the model. -/
structure MqttTopics where
  mqtt_topic_reset : String
  mqtt_topic_lock_action : String
  mqtt_topic_config_action : String
  mqtt_topic_keypad_command_action : String
  mqtt_topic_keypad_command_id : String
  mqtt_topic_keypad_command_name : String
  mqtt_topic_keypad_command_code : String
  mqtt_topic_keypad_command_enabled : String
  mqtt_topic_query_config : String
  mqtt_topic_query_lockstate : String
  mqtt_topic_query_keypad : String
  mqtt_topic_query_battery : String
  mqtt_topic_lock_state : String
  mqtt_topic_lock_ha_state : String
  mqtt_topic_lock_binary_state : String
  mqtt_topic_lock_trigger : String
  mqtt_topic_lock_last_lock_action : String
  mqtt_topic_lock_completionStatus : String
  mqtt_topic_lock_door_sensor_state : String
  mqtt_topic_battery_critical : String
  mqtt_topic_battery_charging : String
  mqtt_topic_battery_level : String
  mqtt_topic_battery_keypad_critical : String
  mqtt_topic_lock_json : String
  mqtt_topic_lock_log : String
  mqtt_topic_lock_auth_id : String
  mqtt_topic_lock_auth_name : String
  mqtt_topic_keypad : String
  mqtt_topic_keypad_json : String

/-- The subscribed suffixes, in the order `onMqttDataReceived` tests them. -/
def MqttTopics.inbound (T : MqttTopics) : List String :=
  [T.mqtt_topic_reset, T.mqtt_topic_lock_action, T.mqtt_topic_keypad_command_action,
   T.mqtt_topic_keypad_command_id, T.mqtt_topic_keypad_command_name,
   T.mqtt_topic_keypad_command_code, T.mqtt_topic_keypad_command_enabled,
   T.mqtt_topic_query_config, T.mqtt_topic_query_lockstate, T.mqtt_topic_query_keypad,
   T.mqtt_topic_query_battery, T.mqtt_topic_config_action]

/-- The suffixes `publishKeyTurnerState` and `publishState` publish on, in source order. -/
def MqttTopics.stateTopics (T : MqttTopics) : List String :=
  [T.mqtt_topic_lock_state, T.mqtt_topic_lock_ha_state, T.mqtt_topic_lock_binary_state,
   T.mqtt_topic_lock_trigger, T.mqtt_topic_lock_last_lock_action,
   T.mqtt_topic_lock_completionStatus, T.mqtt_topic_lock_door_sensor_state,
   T.mqtt_topic_battery_critical, T.mqtt_topic_battery_charging, T.mqtt_topic_battery_level,
   T.mqtt_topic_battery_keypad_critical, T.mqtt_topic_lock_json]

/-- Modelled from the spec: a concrete catalog for `MqttTopics.h`, with the suffixes the
topic table of the specification lists (section 6); used to evaluate the model. -/
def specTopics : MqttTopics where
  mqtt_topic_reset := "reset"
  mqtt_topic_lock_action := "lock/action"
  mqtt_topic_config_action := "config/action"
  mqtt_topic_keypad_command_action := "keypad/command/action"
  mqtt_topic_keypad_command_id := "keypad/command/id"
  mqtt_topic_keypad_command_name := "keypad/command/name"
  mqtt_topic_keypad_command_code := "keypad/command/code"
  mqtt_topic_keypad_command_enabled := "keypad/command/enabled"
  mqtt_topic_query_config := "query/config"
  mqtt_topic_query_lockstate := "query/lockstate"
  mqtt_topic_query_keypad := "query/keypad"
  mqtt_topic_query_battery := "query/battery"
  mqtt_topic_lock_state := "state"
  mqtt_topic_lock_ha_state := "hastate"
  mqtt_topic_lock_binary_state := "binaryState"
  mqtt_topic_lock_trigger := "trigger"
  mqtt_topic_lock_last_lock_action := "last_lock_action"
  mqtt_topic_lock_completionStatus := "completionStatus"
  mqtt_topic_lock_door_sensor_state := "door_sensor_state"
  mqtt_topic_battery_critical := "battery/critical"
  mqtt_topic_battery_charging := "battery/charging"
  mqtt_topic_battery_level := "battery/level"
  mqtt_topic_battery_keypad_critical := "battery/keypadCritical"
  mqtt_topic_lock_json := "json"
  mqtt_topic_lock_log := "log"
  mqtt_topic_lock_auth_id := "authorizationId"
  mqtt_topic_lock_auth_name := "authorizationName"
  mqtt_topic_keypad := "keypad"
  mqtt_topic_keypad_json := "keypad/json"

/-- The `QUERY_COMMAND_*` masks.  Their header is not among the sources, so the four values
are parameters of the model. -/
structure QueryCommand where
  QUERY_COMMAND_LOCKSTATE : Nat
  QUERY_COMMAND_CONFIG : Nat
  QUERY_COMMAND_KEYPAD : Nat
  QUERY_COMMAND_BATTERY : Nat

/-- Modelled from the spec: the query set is "a bitset over {config, lock-state, keypad,
battery}"; one bit of the byte for each category. -/
def specQuery : QueryCommand where
  QUERY_COMMAND_LOCKSTATE := 1
  QUERY_COMMAND_CONFIG := 2
  QUERY_COMMAND_KEYPAD := 4
  QUERY_COMMAND_BATTERY := 8

/-- Result of the lock action callback (`LockActionResult`), as named in the source. -/
inductive LockActionResult where
  | Success
  | UnknownAction
  | AccessDenied
  | Failed
  deriving DecidableEq, Repr

/-- Result of the configuration callback (`ConfigUpdateResult`), as named in the source. -/
inductive ConfigUpdateResult where
  | Success
  | UnknownAction
  | AccessDenied
  | Failed
  deriving DecidableEq, Repr

/-! ## C library -/

/-- The characters `isspace` accepts in the C locale. -/
def isspace (c : Char) : Bool :=
  c = ' ' || c = '\t' || c = '\n' || c = '\x0b' || c = '\x0c' || c = '\r'

/-- Digit loop of `atoi`: consume decimal digits, stop at the first other character. -/
def atoiDigits : List Char → Int → Int
  | [], acc => acc
  | c :: cs, acc =>
    if c.isDigit then atoiDigits cs (acc * 10 + ((c.toNat - '0'.toNat : Nat) : Int)) else acc

/-- The number `strtol` reads in base 10, before any clamping: skip white space, read an
optional sign, then the longest run of decimal digits; 0 when there is none. -/
def strtolNumber (value : String) : Int :=
  match value.data.dropWhile isspace with
  | '-' :: rest => - atoiDigits rest 0
  | '+' :: rest => atoiDigits rest 0
  | rest => atoiDigits rest 0

/-- Smallest value of the C type `int` (32 bit). -/
def INT_MIN : Int := -2147483648

/-- Largest value of the C type `int` (32 bit). -/
def INT_MAX : Int := 2147483647

/-- Smallest value of the C type `long` (taken as 64 bit). -/
def LONG_MIN : Int := -9223372036854775808

/-- Largest value of the C type `long` (taken as 64 bit). -/
def LONG_MAX : Int := 9223372036854775807

/-- C `strtol(value, NULL, 10)`: the number read, clamped to the range of `long` when it
lies outside. -/
def strtol (value : String) : Int :=
  if strtolNumber value > LONG_MAX then LONG_MAX
  else if strtolNumber value < LONG_MIN then LONG_MIN
  else strtolNumber value

/-- Conversion of a `long` to `int`: the low 32 bits, read in two's complement. -/
def toInt (i : Int) : Int := (i + 2147483648) % 4294967296 - 2147483648

/-- C `atoi`, which the C library defines as `(int) strtol(value, NULL, 10)`.  The result is
always a value of `int`.  For a numeral within the range of `int` it is the number read,
whatever the width of `long`; outside that range C leaves the result open, and the model
follows the library on a 64 bit `long`: clamp to `long`, then keep the low 32 bits. -/
def atoi (value : String) : Int := toInt (strtol value)

/-- Conversion of an `int` to `uint` (32 bit), as on assignment to `_keypadCommandId`. -/
def toUInt (i : Int) : Nat := (i % 4294967296).toNat

/-! ## The object and its observable calls -/

/-- Calls `NetworkLock` makes on its collaborators: the publish functions of `Network`
(which receive `_mqttPath` and the topic suffix), the three registered callbacks, and the
restart sequence. -/
inductive Effect where
  | publishString (topic value : String)
  | publishInt (topic : String) (value : Int)
  | publishUInt (topic : String) (value : Nat)
  | publishBool (topic : String) (value : Bool)
  | lockActionReceivedCallback (value : String)
  | configUpdateReceivedCallback (value : String)
  | keypadCommandReceivedReceivedCallback (command : String) (id : Nat) (name code : String)
      (enabled : Int)
  | clearWifiFallback
  | restartEsp
  deriving DecidableEq, Repr

/-- Members of `NetworkLock` that the modelled functions read or write.  A callback that is
`NULL` is `none`; the keypad callback returns `void`, so only its presence is kept. -/
structure NetworkLock where
  _mqttPath : String
  _haEnabled : Bool
  _reconnected : Bool
  _firstTunerStatePublish : Bool
  _queryCommands : Nat
  _keypadCommandId : Nat
  _keypadCommandName : String
  _keypadCommandCode : String
  _keypadCommandEnabled : Int
  authId : Nat
  authName : String
  _lockActionReceivedCallback : Option (String → LockActionResult)
  _configUpdateReceivedCallback : Option (String → ConfigUpdateResult)
  _keypadCommandReceivedReceivedCallback : Bool

/-! ## Path building on character buffers -/

/-- The terminator of a C string. -/
def NUL : Char := Char.ofNat 0

/-- A character buffer of unknown extent: the character stored at each index. -/
abbrev CharBuffer := Nat → Char

/-- Memory holding a C string: its characters, the terminator, then whatever follows it. -/
def cString (body : List Char) (after : CharBuffer) : CharBuffer := fun i =>
  if i < body.length then body.getD i NUL
  else if i = body.length then NUL
  else after (i - body.length - 1)

/-- The `for` loop of `buildMqttPath`: the elements of the array `_mqttPath` are copied to
`outPath` until the first NUL or the end of the array.  The result is the buffer and
`offset`. -/
def copyStoredPath : List Char → CharBuffer → Nat → CharBuffer × Nat
  | [], outPath, offset => (outPath, offset)
  | c :: rest, outPath, offset =>
    if c = NUL then (outPath, offset)
    else copyStoredPath rest (Function.update outPath offset c) (offset + 1)

/-- The `while` loop of `buildMqttPath`, which tests `outPath[i]`.  The result is the
buffer, `i` and `offset`, or `none` when the loop has not stopped within `fuel`
iterations. -/
def appendSubPath (path : CharBuffer) :
    Nat → CharBuffer → Nat → Nat → Option (CharBuffer × Nat × Nat)
  | 0, _, _, _ => none
  | fuel + 1, outPath, i, offset =>
    if outPath i ≠ NUL then
      appendSubPath path fuel (Function.update outPath offset (path i)) (i + 1) (offset + 1)
    else some (outPath, i, offset)

/-- `NetworkLock::buildMqttPath(path, outPath)` on buffers: `mqttPathArray` is the content of
the member array `_mqttPath`.  The result is the buffer after the final
`outPath[i+1] = 0x00`, with the final values of `i` and `offset`. -/
def buildMqttPath (mqttPathArray : List Char) (path outPath : CharBuffer) (fuel : Nat) :
    Option (CharBuffer × Nat × Nat) :=
  let copied := copyStoredPath mqttPathArray outPath 0
  match appendSubPath path fuel copied.1 0 copied.2 with
  | none => none
  | some (out, i, offset) => some (Function.update out (i + 1) NUL, i, offset)

/-- Whether `strcmp(a, b) == 0`, reading from index `j`, at most `fuel` characters. -/
def strcmpEq (a b : CharBuffer) : Nat → Nat → Bool
  | 0, _ => false
  | fuel + 1, j =>
    if a j ≠ b j then false
    else if a j = NUL then true
    else strcmpEq a b fuel (j + 1)

/-- `NetworkLock::comparePrefixedPath(fullPath, subPath)` on buffers: `scratch` is the
initial content of the local `char prefixedPath[500]`.  The result is `none` when
`buildMqttPath` writes outside those 500 characters (every iteration of its loop writes one
character further, so it cannot stay inside for more than 500 iterations). -/
def comparePrefixedPathBuf (mqttPathArray : List Char) (fullPath subPath scratch : CharBuffer) :
    Option Bool :=
  match buildMqttPath mqttPathArray subPath scratch 500 with
  | none => none
  | some (prefixedPath, i, offset) =>
    if offset ≤ 500 ∧ i + 1 < 500 then some (strcmpEq fullPath prefixedPath 500 0) else none

/-! ## Dispatch of inbound messages -/

/-- `NetworkLock::comparePrefixedPath` on strings: whether `fullPath` is `_mqttPath` followed
by `subPath`.  That is the value the source computes (`buildMqttPath` into the scratch
buffer, then `strcmp`) whenever the stored path is not empty and the result fits the
scratch buffer, see `comparePrefixedPathBuf_eq`; the stored path is never empty, since
start-up falls back to "nuki". -/
def comparePrefixedPath (_mqttPath fullPath subPath : String) : Bool :=
  decide (fullPath = _mqttPath ++ subPath)

/-- Guard of the lock and configuration action blocks: the payload is one of the tokens the
bridge itself publishes on those topics. -/
def isReservedToken (value : String) : Bool :=
  value = "" || value = "--" || value = "ack" || value = "unknown_action" ||
    value = "denied" || value = "error"

/-- Lines 94-126 of `onMqttDataReceived`: the lock action block.  The result is `none` when
the block executes `return`, otherwise the calls it made. -/
def lockActionBlock (T : MqttTopics) (s : NetworkLock) (topic value : String) :
    Option (List Effect) :=
  if comparePrefixedPath s._mqttPath topic T.mqtt_topic_lock_action then
    if isReservedToken value then none
    else
      let called : LockActionResult × List Effect :=
        match s._lockActionReceivedCallback with
        | some cb => (cb value, [Effect.lockActionReceivedCallback value])
        | none => (LockActionResult.Failed, [])
      match called.1 with
      | LockActionResult.Success =>
        some (called.2 ++ [Effect.publishString T.mqtt_topic_lock_action "ack"])
      | LockActionResult.UnknownAction =>
        some (called.2 ++ [Effect.publishString T.mqtt_topic_lock_action "unknown_action"])
      | LockActionResult.AccessDenied =>
        some (called.2 ++ [Effect.publishString T.mqtt_topic_lock_action "denied"])
      | LockActionResult.Failed =>
        some (called.2 ++ [Effect.publishString T.mqtt_topic_lock_action "error"])
  else some []

/-- Lines 128-186 of `onMqttDataReceived`: the keypad command topics and the query topics,
one `if / else if` chain.  The result is `none` when the chain executes `return`. -/
def keypadAndQueryBlock (T : MqttTopics) (Q : QueryCommand) (s : NetworkLock)
    (topic value : String) : Option (NetworkLock × List Effect) :=
  if comparePrefixedPath s._mqttPath topic T.mqtt_topic_keypad_command_action then
    if s._keypadCommandReceivedReceivedCallback then
      if value = "--" then none
      else
        let s1 : NetworkLock :=
          { s with _keypadCommandId := 0, _keypadCommandName := "--",
                   _keypadCommandCode := "000000", _keypadCommandEnabled := 1 }
        some (s1,
          [Effect.keypadCommandReceivedReceivedCallback value s._keypadCommandId
              s._keypadCommandName s._keypadCommandCode s._keypadCommandEnabled] ++
          (if value ≠ "--" then
            [Effect.publishString T.mqtt_topic_keypad_command_action "--"] else []) ++
          [Effect.publishInt T.mqtt_topic_keypad_command_id (s1._keypadCommandId : Int),
           Effect.publishString T.mqtt_topic_keypad_command_name s1._keypadCommandName,
           Effect.publishString T.mqtt_topic_keypad_command_code s1._keypadCommandCode,
           Effect.publishInt T.mqtt_topic_keypad_command_enabled s1._keypadCommandEnabled])
    else some (s, [])
  else if comparePrefixedPath s._mqttPath topic T.mqtt_topic_keypad_command_id then
    some ({ s with _keypadCommandId := toUInt (atoi value) }, [])
  else if comparePrefixedPath s._mqttPath topic T.mqtt_topic_keypad_command_name then
    some ({ s with _keypadCommandName := value }, [])
  else if comparePrefixedPath s._mqttPath topic T.mqtt_topic_keypad_command_code then
    some ({ s with _keypadCommandCode := value }, [])
  else if comparePrefixedPath s._mqttPath topic T.mqtt_topic_keypad_command_enabled then
    some ({ s with _keypadCommandEnabled := atoi value }, [])
  else if comparePrefixedPath s._mqttPath topic T.mqtt_topic_query_config &&
      decide (value = "1") then
    some ({ s with _queryCommands := (s._queryCommands ||| Q.QUERY_COMMAND_CONFIG) % 256 },
      [Effect.publishString T.mqtt_topic_query_config "0"])
  else if comparePrefixedPath s._mqttPath topic T.mqtt_topic_query_lockstate &&
      decide (value = "1") then
    some ({ s with _queryCommands := (s._queryCommands ||| Q.QUERY_COMMAND_LOCKSTATE) % 256 },
      [Effect.publishString T.mqtt_topic_query_lockstate "0"])
  else if comparePrefixedPath s._mqttPath topic T.mqtt_topic_query_keypad &&
      decide (value = "1") then
    some ({ s with _queryCommands := (s._queryCommands ||| Q.QUERY_COMMAND_KEYPAD) % 256 },
      [Effect.publishString T.mqtt_topic_query_keypad "0"])
  else if comparePrefixedPath s._mqttPath topic T.mqtt_topic_query_battery &&
      decide (value = "1") then
    some ({ s with _queryCommands := (s._queryCommands ||| Q.QUERY_COMMAND_BATTERY) % 256 },
      [Effect.publishString T.mqtt_topic_query_battery "0"])
  else some (s, [])

/-- Lines 188-220 of `onMqttDataReceived`: the configuration action block.  The result is
`none` when the block executes `return`, otherwise the calls it made. -/
def configActionBlock (T : MqttTopics) (s : NetworkLock) (topic value : String) :
    Option (List Effect) :=
  if comparePrefixedPath s._mqttPath topic T.mqtt_topic_config_action then
    if isReservedToken value then none
    else
      let called : ConfigUpdateResult × List Effect :=
        match s._configUpdateReceivedCallback with
        | some cb => (cb value, [Effect.configUpdateReceivedCallback value])
        | none => (ConfigUpdateResult.Failed, [])
      match called.1 with
      | ConfigUpdateResult.Success =>
        some (called.2 ++ [Effect.publishString T.mqtt_topic_config_action "ack"])
      | ConfigUpdateResult.UnknownAction =>
        some (called.2 ++ [Effect.publishString T.mqtt_topic_config_action "unknown_action"])
      | ConfigUpdateResult.AccessDenied =>
        some (called.2 ++ [Effect.publishString T.mqtt_topic_config_action "denied"])
      | ConfigUpdateResult.Failed =>
        some (called.2 ++ [Effect.publishString T.mqtt_topic_config_action "error"])
  else some []

/-- `NetworkLock::onMqttDataReceived(topic, payload, length)`; `value` is the payload read as
a C string.  A restart request ends the call (`restartEsp` does not return); a `return`
inside a block ends it with the calls made so far. -/
def onMqttDataReceived (T : MqttTopics) (Q : QueryCommand) (s : NetworkLock)
    (topic value : String) : NetworkLock × List Effect :=
  if comparePrefixedPath s._mqttPath topic T.mqtt_topic_reset && decide (value = "1") then
    (s, [Effect.clearWifiFallback, Effect.restartEsp])
  else
    match lockActionBlock T s topic value with
    | none => (s, [])
    | some e1 =>
      match keypadAndQueryBlock T Q s topic value with
      | none => (s, e1)
      | some (s2, e2) =>
        match configActionBlock T s2 topic value with
        | none => (s2, e1 ++ e2)
        | some e3 => (s2, e1 ++ e2 ++ e3)

/-- `NetworkLock::queryCommands`: return the accumulated set and clear it. -/
def queryCommands (s : NetworkLock) : Nat × NetworkLock :=
  (s._queryCommands, { s with _queryCommands := 0 })

/-- `NetworkLock::reconnected`: return the reconnect flag and clear it. -/
def reconnected (s : NetworkLock) : Bool × NetworkLock :=
  (s._reconnected, { s with _reconnected := false })

/-- The callback `initialize` registers with `addReconnectedCallback`: its whole body is
`_reconnected = true`. -/
def reconnectedCallback (s : NetworkLock) : NetworkLock :=
  { s with _reconnected := true }

/-! ## The state mirror -/

/-- `NukiLock::LockState`, an enumeration of the Nuki BLE library: the twelve enumerators
that `NetworkLock.cpp` names, listed in the order of the device protocol. -/
inductive LockState where
  | Uncalibrated
  | Locked
  | Unlocking
  | Unlocked
  | Locking
  | Unlatched
  | UnlockedLnga
  | Unlatching
  | Calibration
  | BootRun
  | MotorBlocked
  | Undefined
  deriving DecidableEq, Repr

/-- All enumerators of `LockState`. -/
def LockState.all : List LockState :=
  [LockState.Uncalibrated, LockState.Locked, LockState.Unlocking, LockState.Unlocked,
   LockState.Locking, LockState.Unlatched, LockState.UnlockedLnga, LockState.Unlatching,
   LockState.Calibration, LockState.BootRun, LockState.MotorBlocked, LockState.Undefined]

/-- The fields of `NukiLock::KeyTurnerState` that `publishKeyTurnerState` reads.  The
enumerations other than the lock state are only compared and rendered, so they are kept as
their raw values; the two battery fields are bytes. -/
structure KeyTurnerState where
  lockState : LockState
  trigger : Nat
  lastLockAction : Nat
  lastLockActionCompletionStatus : Nat
  doorSensorState : Nat
  criticalBatteryState : Nat
  accessoryBatteryState : Nat
  deriving DecidableEq, Repr

/-- A value stored in the JSON document of `publishKeyTurnerState`. -/
inductive JsonValue where
  | str (value : String)
  | uint (value : Nat)
  deriving DecidableEq, Repr

/-- Library functions `publishKeyTurnerState` calls: the renderers of the Nuki BLE library
and `serializeJson` of ArduinoJson (applied to the members of the document, in insertion
order).  They are external to the repository and are parameters of the model. -/
structure NukiLib where
  lockstateToString : LockState → String
  triggerToString : Nat → String
  lockactionToString : Nat → String
  completionStatusToString : Nat → String
  doorSensorStateToString : Nat → String
  serializeJson : List (String × JsonValue) → String

/-- A stand-in for the external renderers, used to evaluate the model on concrete inputs:
enumerator names for the lock state, decimal numerals for the raw enumerations, and the
members separated by semicolons for the document. -/
def demoLib : NukiLib where
  lockstateToString := fun l =>
    match l with
    | LockState.Uncalibrated => "uncalibrated"
    | LockState.Locked => "locked"
    | LockState.Unlocking => "unlocking"
    | LockState.Unlocked => "unlocked"
    | LockState.Locking => "locking"
    | LockState.Unlatched => "unlatched"
    | LockState.UnlockedLnga => "unlockedLnGo"
    | LockState.Unlatching => "unlatching"
    | LockState.Calibration => "calibration"
    | LockState.BootRun => "bootRun"
    | LockState.MotorBlocked => "motorBlocked"
    | LockState.Undefined => "undefined"
  triggerToString := fun n => toString n
  lockactionToString := fun n => toString n
  completionStatusToString := fun n => toString n
  doorSensorStateToString := fun n => toString n
  serializeJson := fun doc =>
    String.intercalate ";" (doc.map fun kv =>
      match kv.2 with
      | JsonValue.str v => kv.1 ++ "=" ++ v
      | JsonValue.uint n => kv.1 ++ "=" ++ toString n)

/-- `NetworkLock::publishState`: the two derived channels (state for the home automation
front end, and the binary state). -/
def publishState (T : MqttTopics) (lockState : LockState) : List Effect :=
  match lockState with
  | LockState.Locked =>
    [Effect.publishString T.mqtt_topic_lock_ha_state "locked",
     Effect.publishString T.mqtt_topic_lock_binary_state "locked"]
  | LockState.Locking =>
    [Effect.publishString T.mqtt_topic_lock_ha_state "locking",
     Effect.publishString T.mqtt_topic_lock_binary_state "locked"]
  | LockState.Unlocking =>
    [Effect.publishString T.mqtt_topic_lock_ha_state "unlocking",
     Effect.publishString T.mqtt_topic_lock_binary_state "unlocked"]
  | LockState.Unlocked | LockState.Unlatched | LockState.Unlatching
  | LockState.UnlockedLnga =>
    [Effect.publishString T.mqtt_topic_lock_ha_state "unlocked",
     Effect.publishString T.mqtt_topic_lock_binary_state "unlocked"]
  | LockState.Uncalibrated | LockState.Calibration | LockState.BootRun
  | LockState.MotorBlocked =>
    [Effect.publishString T.mqtt_topic_lock_ha_state "jammed"]
  | LockState.Undefined => []

/-- The JSON document `publishKeyTurnerState` fills member by member (the five rendered
fields, then `authId` and `authName` of the object), in insertion order. -/
def keyTurnerStateJson (L : NukiLib) (s : NetworkLock) (keyTurnerState : KeyTurnerState) :
    List (String × JsonValue) :=
  [("lock_state", JsonValue.str (L.lockstateToString keyTurnerState.lockState)),
   ("trigger", JsonValue.str (L.triggerToString keyTurnerState.trigger)),
   ("last_lock_action", JsonValue.str (L.lockactionToString keyTurnerState.lastLockAction)),
   ("lock_completion_status",
      JsonValue.str (L.completionStatusToString keyTurnerState.lastLockActionCompletionStatus)),
   ("door_sensor_state",
      JsonValue.str (L.doorSensorStateToString keyTurnerState.doorSensorState)),
   ("auth_id", JsonValue.uint s.authId), ("auth_name", JsonValue.str s.authName)]

/-- `NetworkLock::publishKeyTurnerState(keyTurnerState, lastKeyTurnerState)`. -/
def publishKeyTurnerState (T : MqttTopics) (L : NukiLib) (s : NetworkLock)
    (keyTurnerState lastKeyTurnerState : KeyTurnerState) : NetworkLock × List Effect :=
  let first := s._firstTunerStatePublish
  let strState := L.lockstateToString keyTurnerState.lockState
  let e1 :=
    if (first || keyTurnerState.lockState != lastKeyTurnerState.lockState) &&
        keyTurnerState.lockState != LockState.Undefined then
      [Effect.publishString T.mqtt_topic_lock_state strState] ++
        (if s._haEnabled then publishState T keyTurnerState.lockState else [])
    else []
  let strTrigger := L.triggerToString keyTurnerState.trigger
  let e2 :=
    if first || keyTurnerState.trigger != lastKeyTurnerState.trigger then
      [Effect.publishString T.mqtt_topic_lock_trigger strTrigger]
    else []
  let strAction := L.lockactionToString keyTurnerState.lastLockAction
  let e3 :=
    if first || keyTurnerState.lastLockAction != lastKeyTurnerState.lastLockAction then
      [Effect.publishString T.mqtt_topic_lock_last_lock_action strAction]
    else []
  let strCompletion := L.completionStatusToString keyTurnerState.lastLockActionCompletionStatus
  let e4 :=
    if first || keyTurnerState.lastLockActionCompletionStatus !=
        lastKeyTurnerState.lastLockActionCompletionStatus then
      [Effect.publishString T.mqtt_topic_lock_completionStatus strCompletion]
    else []
  let strDoor := L.doorSensorStateToString keyTurnerState.doorSensorState
  let e5 :=
    if first || keyTurnerState.doorSensorState != lastKeyTurnerState.doorSensorState then
      [Effect.publishString T.mqtt_topic_lock_door_sensor_state strDoor]
    else []
  let e6 :=
    if first || keyTurnerState.criticalBatteryState !=
        lastKeyTurnerState.criticalBatteryState then
      [Effect.publishBool T.mqtt_topic_battery_critical
         (decide ((keyTurnerState.criticalBatteryState &&& 0b00000001) > 0)),
       Effect.publishBool T.mqtt_topic_battery_charging
         (decide ((keyTurnerState.criticalBatteryState &&& 0b00000010) > 0)),
       Effect.publishInt T.mqtt_topic_battery_level
         ((((keyTurnerState.criticalBatteryState &&& 0b11111100) >>> 1) % 256 : Nat) : Int)]
    else []
  let e7 :=
    if first || keyTurnerState.accessoryBatteryState !=
        lastKeyTurnerState.accessoryBatteryState then
      if (keyTurnerState.accessoryBatteryState &&& (1 <<< 7)) != 0 then
        [Effect.publishBool T.mqtt_topic_battery_keypad_critical
           ((keyTurnerState.accessoryBatteryState &&& (1 <<< 6)) != 0)]
      else
        [Effect.publishBool T.mqtt_topic_battery_keypad_critical false]
    else []
  ({ s with _firstTunerStatePublish := false },
    e1 ++ e2 ++ e3 ++ e4 ++ e5 ++ e6 ++ e7 ++
      [Effect.publishString T.mqtt_topic_lock_json
        (L.serializeJson (keyTurnerStateJson L s keyTurnerState))])

/-! ## Vocabulary of the properties -/

/-- The payloads the action guards treat as echoes of the bridge's own output. -/
def reservedTokens : List String := ["", "--", "ack", "unknown_action", "denied", "error"]

/-- Result token of a lock action, as the specification's result reporter lists them. -/
def lockResultToken : LockActionResult → String
  | LockActionResult.Success => "ack"
  | LockActionResult.UnknownAction => "unknown_action"
  | LockActionResult.AccessDenied => "denied"
  | LockActionResult.Failed => "error"

/-- Result token of a configuration update, as the specification's result reporter lists
them. -/
def configResultToken : ConfigUpdateResult → String
  | ConfigUpdateResult.Success => "ack"
  | ConfigUpdateResult.UnknownAction => "unknown_action"
  | ConfigUpdateResult.AccessDenied => "denied"
  | ConfigUpdateResult.Failed => "error"

/-- The same outcome, named in the other enumeration. -/
def LockActionResult.toConfig : LockActionResult → ConfigUpdateResult
  | LockActionResult.Success => ConfigUpdateResult.Success
  | LockActionResult.UnknownAction => ConfigUpdateResult.UnknownAction
  | LockActionResult.AccessDenied => ConfigUpdateResult.AccessDenied
  | LockActionResult.Failed => ConfigUpdateResult.Failed

/-- The topic suffix of a publish call, `none` for the other calls. -/
def Effect.topic? : Effect → Option String
  | Effect.publishString topic _ => some topic
  | Effect.publishInt topic _ => some topic
  | Effect.publishUInt topic _ => some topic
  | Effect.publishBool topic _ => some topic
  | _ => none

/-- The publish calls of a trace, in order. -/
def publishes (trace : List Effect) : List Effect :=
  trace.filter fun e => e.topic?.isSome

/-- The invocations of registered callbacks in a trace, in order. -/
def handlerCalls (trace : List Effect) : List Effect :=
  trace.filter fun e =>
    match e with
    | Effect.lockActionReceivedCallback _ => true
    | Effect.configUpdateReceivedCallback _ => true
    | Effect.keypadCommandReceivedReceivedCallback _ _ _ _ _ => true
    | _ => false

/-- Whether a trace contains a publish on the given topic suffix. -/
def publishedOn (topic : String) (trace : List Effect) : Bool :=
  trace.any fun e => e.topic? == some topic

/-- Delivery of a sequence of inbound messages (topic, payload), one call of
`onMqttDataReceived` per message; the traces are concatenated. -/
def deliver (T : MqttTopics) (Q : QueryCommand) (s : NetworkLock) :
    List (String × String) → NetworkLock × List Effect
  | [] => (s, [])
  | m :: rest =>
    let r := onMqttDataReceived T Q s m.1 m.2
    let r2 := deliver T Q r.1 rest
    (r2.1, r.2 ++ r2.2)

/-- The four staged fields of a keypad command. -/
inductive StagingField where
  | id
  | name
  | code
  | enabled
  deriving DecidableEq, Repr

/-- The topic suffix on which a staged field is delivered. -/
def stagingTopic (T : MqttTopics) : StagingField → String
  | StagingField.id => T.mqtt_topic_keypad_command_id
  | StagingField.name => T.mqtt_topic_keypad_command_name
  | StagingField.code => T.mqtt_topic_keypad_command_code
  | StagingField.enabled => T.mqtt_topic_keypad_command_enabled

/-- The payload of the last delivery for a field in a sequence of field updates. -/
def lastDelivered (f : StagingField) : List (StagingField × String) → Option String
  | [] => none
  | m :: rest =>
    match lastDelivered f rest with
    | some v => some v
    | none => if m.1 = f then some m.2 else none

/-- The inbound messages of a sequence of field updates, for an object with the given path. -/
def stagingMessages (T : MqttTopics) (_mqttPath : String)
    (updates : List (StagingField × String)) : List (String × String) :=
  updates.map fun m => (_mqttPath ++ stagingTopic T m.1, m.2)

/-- The four query categories. -/
inductive QueryCategory where
  | config
  | lockstate
  | keypad
  | battery
  deriving DecidableEq, Repr

/-- The query topic suffix of a category. -/
def queryTopic (T : MqttTopics) : QueryCategory → String
  | QueryCategory.config => T.mqtt_topic_query_config
  | QueryCategory.lockstate => T.mqtt_topic_query_lockstate
  | QueryCategory.keypad => T.mqtt_topic_query_keypad
  | QueryCategory.battery => T.mqtt_topic_query_battery

/-- The mask of a category. -/
def queryBit (Q : QueryCommand) : QueryCategory → Nat
  | QueryCategory.config => Q.QUERY_COMMAND_CONFIG
  | QueryCategory.lockstate => Q.QUERY_COMMAND_LOCKSTATE
  | QueryCategory.keypad => Q.QUERY_COMMAND_KEYPAD
  | QueryCategory.battery => Q.QUERY_COMMAND_BATTERY

/-- Every mask is a single bit of a byte. -/
def QueryCommand.SingleBits (Q : QueryCommand) : Prop :=
  ∀ c : QueryCategory, ∃ k, k < 8 ∧ queryBit Q c = 2 ^ k

/-- An object with path "nuki" on which no mirror call has taken place and nothing is staged
or requested, with a lock action callback that accepts "lock" and "unlock", a
configuration callback that denies everything, and a keypad callback; used to evaluate the
model. -/
def demoLock : NetworkLock where
  _mqttPath := "nuki"
  _haEnabled := true
  _reconnected := false
  _firstTunerStatePublish := true
  _queryCommands := 0
  _keypadCommandId := 0
  _keypadCommandName := ""
  _keypadCommandCode := ""
  _keypadCommandEnabled := 1
  authId := 0
  authName := ""
  _lockActionReceivedCallback := some fun v =>
    if v = "lock" ∨ v = "unlock" then LockActionResult.Success
    else LockActionResult.UnknownAction
  _configUpdateReceivedCallback := some fun _ => ConfigUpdateResult.AccessDenied
  _keypadCommandReceivedReceivedCallback := true

/-- A snapshot used to evaluate the mirror. -/
def demoState : KeyTurnerState where
  lockState := LockState.Locked
  trigger := 0
  lastLockAction := 2
  lastLockActionCompletionStatus := 0
  doorSensorState := 2
  criticalBatteryState := 0b00000101
  accessoryBatteryState := 0

/-- The object after one field update, as the staging protocol describes it: the named
field takes the (parsed) payload, everything else is kept. -/
def applyUpdate (s : NetworkLock) (m : StagingField × String) : NetworkLock :=
  match m.1 with
  | StagingField.id => { s with _keypadCommandId := toUInt (atoi m.2) }
  | StagingField.name => { s with _keypadCommandName := m.2 }
  | StagingField.code => { s with _keypadCommandCode := m.2 }
  | StagingField.enabled => { s with _keypadCommandEnabled := atoi m.2 }

/-- The texts `publishState` publishes for a lock state on the derived state channel
(`mqtt_topic_lock_ha_state`). -/
def haStateOf (T : MqttTopics) (lockState : LockState) : List String :=
  (publishState T lockState).filterMap fun e =>
    match e with
    | Effect.publishString topic value =>
      if topic = T.mqtt_topic_lock_ha_state then some value else none
    | _ => none

/-- The lock states that `publishState` renders as the given text on the derived state
channel, in the order of `LockState.all`. -/
def statesRenderedAs (T : MqttTopics) (text : String) : List LockState :=
  LockState.all.filter fun l => haStateOf T l = [text]

/-- Whether a payload is, as a whole, a decimal number: optional white space, at most one
sign, then one or more decimal digits and nothing else. -/
def isDecimalNumber (value : String) : Bool :=
  match value.data.dropWhile isspace with
  | '-' :: rest => !rest.isEmpty && rest.all Char.isDigit
  | '+' :: rest => !rest.isEmpty && rest.all Char.isDigit
  | rest => !rest.isEmpty && rest.all Char.isDigit

/-- Whether a payload has a numeric leading part: after optional white space and at most one
sign, the next character is a decimal digit. -/
def hasNumericLead (value : String) : Bool :=
  match value.data.dropWhile isspace with
  | '-' :: c :: _ => c.isDigit
  | '+' :: c :: _ => c.isDigit
  | c :: _ => c.isDigit
  | [] => false

/-- An object with a staged keypad command (7, "Alice", "123456", 0) and a keypad callback;
used to evaluate the model. -/
def stagedLock : NetworkLock :=
  { demoLock with _keypadCommandId := 7, _keypadCommandName := "Alice",
                  _keypadCommandCode := "123456", _keypadCommandEnabled := 0 }

/-- The object `stagedLock` without a keypad callback. -/
def stagedLockNoHandler : NetworkLock :=
  { stagedLock with _keypadCommandReceivedReceivedCallback := false }

/-- Modelled from the spec: the payload text under which `Network` (its source is not among
the files) sends the publish calls that `onMqttDataReceived` makes: a string as it is, an
integer as its decimal numeral ("0" out on the query topics, the staged defaults 0 and 1).
The other publish calls are not made by `onMqttDataReceived` and have no entry. -/
def Effect.payload? : Effect → Option String
  | Effect.publishString _ value => some value
  | Effect.publishInt _ value => some (toString value)
  | _ => none

/-- The inbound messages that the publishes of a trace become when the broker delivers them
back to the subscriber: same topic (path followed by suffix), same payload, same order. -/
def feedback (_mqttPath : String) (trace : List Effect) : List (String × String) :=
  trace.filterMap fun e =>
    match e.topic?, e.payload? with
    | some topic, some value => some (_mqttPath ++ topic, value)
    | _, _ => none

/-- The publishes of one call, delivered back in emitted order, are all ignored: every
publish of the call has become a message, and their delivery makes no call on a
collaborator and leaves the object as the call left it. -/
def FeedbackIgnored (T : MqttTopics) (Q : QueryCommand) (s : NetworkLock)
    (topic value : String) : Prop :=
  (feedback s._mqttPath (onMqttDataReceived T Q s topic value).2).length =
    (publishes (onMqttDataReceived T Q s topic value).2).length ∧
  deliver T Q (onMqttDataReceived T Q s topic value).1
      (feedback s._mqttPath (onMqttDataReceived T Q s topic value).2) =
    ((onMqttDataReceived T Q s topic value).1, [])

/-- The publish calls of a trace on any of the given topic suffixes, in order. -/
def publishesOn (topics : List String) (trace : List Effect) : List Effect :=
  trace.filter fun e =>
    match e.topic? with
    | some topic => topics.contains topic
    | none => false

/-! ## The authorization log -/

/-- `NukiLock::LoggingType`, an enumeration of the Nuki BLE library: the three enumerators
that `NetworkLock.cpp` names, and the remaining values by their raw number. -/
inductive LoggingType where
  | LockAction
  | KeypadAction
  | DoorSensor
  | Other (raw : Nat)
  deriving DecidableEq, Repr

/-- The fields of `NukiLock::LogEntry` that `publishAuthorizationInfo` reads; `name` is the
C string held by the fixed-size name array, `data` the payload bytes. -/
structure LogEntry where
  index : Nat
  timeStampYear : Nat
  timeStampMonth : Nat
  timeStampDay : Nat
  timeStampHour : Nat
  timeStampMinute : Nat
  timeStampSecond : Nat
  authId : Nat
  name : String
  loggingType : LoggingType
  data : List Nat
  deriving DecidableEq, Repr

/-- Library functions `publishAuthorizationInfo` and `publishKeypad` call in addition to those
of `NukiLib`: the renderer of the logging type, and `serializeJson` of ArduinoJson for a
document that is an array of objects.  They are external to the repository and are
parameters of the model. -/
structure NukiLogLib where
  loggingTypeToString : LoggingType → String
  serializeJsonArray : List (List (String × JsonValue)) → String

/-- A stand-in for these external functions, used to evaluate the model on concrete inputs. -/
def demoLogLib : NukiLogLib where
  loggingTypeToString := fun t =>
    match t with
    | LoggingType.LockAction => "LockAction"
    | LoggingType.KeypadAction => "KeypadAction"
    | LoggingType.DoorSensor => "DoorSensor"
    | LoggingType.Other raw => toString raw
  serializeJsonArray := fun doc => String.intercalate "|" (doc.map demoLib.serializeJson)

/-- The JSON object `publishAuthorizationInfo` adds for one log entry: the common members,
then the members that depend on the logging type (the `switch` of the loop body). -/
def logEntryJson (L : NukiLib) (G : NukiLogLib) (log : LogEntry) : List (String × JsonValue) :=
  [("index", JsonValue.uint log.index),
   ("authorizationId", JsonValue.uint log.authId),
   ("authorizationName", JsonValue.str log.name),
   ("timeYear", JsonValue.uint log.timeStampYear),
   ("timeMonth", JsonValue.uint log.timeStampMonth),
   ("timeDay", JsonValue.uint log.timeStampDay),
   ("timeHour", JsonValue.uint log.timeStampHour),
   ("timeMinute", JsonValue.uint log.timeStampMinute),
   ("timeSecond", JsonValue.uint log.timeStampSecond),
   ("type", JsonValue.str (G.loggingTypeToString log.loggingType))] ++
  match log.loggingType with
  | LoggingType.LockAction =>
    [("action", JsonValue.str (L.lockactionToString (log.data.getD 0 0))),
     ("trigger", JsonValue.str (L.triggerToString (log.data.getD 1 0))),
     ("completionStatus", JsonValue.str (L.completionStatusToString (log.data.getD 3 0)))]
  | LoggingType.KeypadAction =>
    [("action", JsonValue.str (L.lockactionToString (log.data.getD 0 0))),
     ("completionStatus", JsonValue.str (L.completionStatusToString (log.data.getD 2 0)))]
  | LoggingType.DoorSensor =>
    [("action", JsonValue.str
        (match log.data.getD 0 0 with
         | 0 => "DoorOpened"
         | 1 => "DoorClosed"
         | 2 => "SensorJammed"
         | _ => "Unknown")),
     ("completionStatus", JsonValue.str (L.completionStatusToString (log.data.getD 2 0)))]
  | LoggingType.Other _ => []

/-- The local variables of `publishAuthorizationInfo` that its loop updates, together with
the members `authId` and `authName` of the object. -/
structure AuthorizationLoop where
  authFound : Bool
  authId : Nat
  authName : String
  json : List (List (String × JsonValue))

/-- The loop of `publishAuthorizationInfo` over the log entries, with its counter `i`: it
stops when `i <= 0`, and the first lock or keypad action it meets becomes the authorized
user. -/
def authorizationLoop (L : NukiLib) (G : NukiLogLib) :
    List LogEntry → Int → AuthorizationLoop → AuthorizationLoop
  | [], _, st => st
  | log :: rest, i, st =>
    if i ≤ 0 then st
    else
      let st1 : AuthorizationLoop :=
        if (log.loggingType = LoggingType.LockAction ∨
            log.loggingType = LoggingType.KeypadAction) ∧ st.authFound = false then
          { st with authFound := true, authId := log.authId, authName := log.name }
        else st
      authorizationLoop L G rest (i - 1) { st1 with json := st1.json ++ [logEntryJson L G log] }

/-- `NetworkLock::publishAuthorizationInfo(logEntries)`; `authName` is cleared before the
loop. -/
def publishAuthorizationInfo (T : MqttTopics) (L : NukiLib) (G : NukiLogLib) (s : NetworkLock)
    (logEntries : List LogEntry) : NetworkLock × List Effect :=
  let st := authorizationLoop L G logEntries 5
    { authFound := false, authId := s.authId, authName := "", json := [] }
  ({ s with authId := st.authId, authName := st.authName },
    [Effect.publishString T.mqtt_topic_lock_log (G.serializeJsonArray st.json)] ++
      if st.authFound then
        [Effect.publishUInt T.mqtt_topic_lock_auth_id st.authId,
         Effect.publishString T.mqtt_topic_lock_auth_name st.authName]
      else [])

/-- Whether a log entry is a lock action or a keypad action. -/
def LogEntry.isAction (log : LogEntry) : Bool :=
  log.loggingType = LoggingType.LockAction || log.loggingType = LoggingType.KeypadAction

/-- A log entry with the given index, author and type; used to evaluate the model. -/
def demoLog (index authId : Nat) (name : String) (loggingType : LoggingType) : LogEntry where
  index := index
  timeStampYear := 2024
  timeStampMonth := 1
  timeStampDay := 2
  timeStampHour := 3
  timeStampMinute := 4
  timeStampSecond := 5
  authId := authId
  name := name
  loggingType := loggingType
  data := [1, 0, 0, 0, 0]

/-- Five log entries, most recent first, of which the third is the first lock or keypad
action. -/
def demoLogEntries : List LogEntry :=
  [demoLog 50 11 "Door" LoggingType.DoorSensor, demoLog 49 12 "Cal" (LoggingType.Other 3),
   demoLog 48 13 "Alice" LoggingType.KeypadAction, demoLog 47 14 "Bob" LoggingType.LockAction,
   demoLog 46 15 "Eve" LoggingType.DoorSensor]

/-! ## The keypad listing -/

/-- The fields of `NukiLock::KeypadEntry` that `publishKeypad` and `publishKeypadEntry` read;
`name` is the C string held by the fixed-size name array, `enabled` a byte. -/
structure KeypadEntry where
  codeId : Nat
  enabled : Nat
  name : String
  dateCreatedYear : Nat
  dateCreatedMonth : Nat
  dateCreatedDay : Nat
  dateCreatedHour : Nat
  dateCreatedMin : Nat
  dateCreatedSec : Nat
  lockCount : Nat
  deriving DecidableEq, Repr

/-- The entry `publishKeypad` builds for a free slot with `memset(&entry, 0, sizeof(entry))`. -/
def emptyKeypadEntry : KeypadEntry where
  codeId := 0
  enabled := 0
  name := ""
  dateCreatedYear := 0
  dateCreatedMonth := 0
  dateCreatedDay := 0
  dateCreatedHour := 0
  dateCreatedMin := 0
  dateCreatedSec := 0
  lockCount := 0

/-- The base path of slot `index`: `mqtt_topic_keypad`, "/code_" and the decimal index. -/
def keypadSlotPath (T : MqttTopics) (index : Nat) : String :=
  T.mqtt_topic_keypad ++ "/code_" ++ toString index

/-- `NetworkLock::publishKeypadEntry(topic, entry)`: the ten sub-topics of one slot. -/
def publishKeypadEntry (topic : String) (entry : KeypadEntry) : List Effect :=
  [Effect.publishInt (topic ++ "/id") (entry.codeId : Int),
   Effect.publishBool (topic ++ "/enabled") (entry.enabled != 0),
   Effect.publishString (topic ++ "/name") entry.name,
   Effect.publishInt (topic ++ "/createdYear") (entry.dateCreatedYear : Int),
   Effect.publishInt (topic ++ "/createdMonth") (entry.dateCreatedMonth : Int),
   Effect.publishInt (topic ++ "/createdDay") (entry.dateCreatedDay : Int),
   Effect.publishInt (topic ++ "/createdHour") (entry.dateCreatedHour : Int),
   Effect.publishInt (topic ++ "/createdMin") (entry.dateCreatedMin : Int),
   Effect.publishInt (topic ++ "/createdSec") (entry.dateCreatedSec : Int),
   Effect.publishInt (topic ++ "/lockCount") (entry.lockCount : Int)]

/-- The JSON object `publishKeypad` adds for one entry. -/
def keypadEntryJson (entry : KeypadEntry) : List (String × JsonValue) :=
  [("id", JsonValue.uint entry.codeId),
   ("enabled", JsonValue.uint entry.enabled),
   ("name", JsonValue.str entry.name),
   ("createdYear", JsonValue.uint entry.dateCreatedYear),
   ("createdMonth", JsonValue.uint entry.dateCreatedMonth),
   ("createdDay", JsonValue.uint entry.dateCreatedDay),
   ("createdHour", JsonValue.uint entry.dateCreatedHour),
   ("createdMin", JsonValue.uint entry.dateCreatedMin),
   ("createdSec", JsonValue.uint entry.dateCreatedSec),
   ("lockCount", JsonValue.uint entry.lockCount)]

/-- The `for` loop of `publishKeypad` over the entries, starting at `index`: the publishes,
the JSON objects and the final value of `index`. -/
def publishKeypadEntries (T : MqttTopics) :
    List KeypadEntry → Nat → List Effect × List (List (String × JsonValue)) × Nat
  | [], index => ([], [], index)
  | entry :: rest, index =>
    let r := publishKeypadEntries T rest (index + 1)
    (publishKeypadEntry (keypadSlotPath T index) entry ++ r.1, keypadEntryJson entry :: r.2.1,
      r.2.2)

/-- The `while(index < maxKeypadCodeCount)` loop of `publishKeypad`, which publishes the empty
entry on the remaining slots; `fuel` bounds the number of iterations. -/
def publishEmptySlots (T : MqttTopics) (maxKeypadCodeCount : Nat) : Nat → Nat → List Effect
  | 0, _ => []
  | fuel + 1, index =>
    if index < maxKeypadCodeCount then
      publishKeypadEntry (keypadSlotPath T index) emptyKeypadEntry ++
        publishEmptySlots T maxKeypadCodeCount fuel (index + 1)
    else []

/-- `NetworkLock::publishKeypad(entries, maxKeypadCodeCount)`.  The second loop runs at most
`maxKeypadCodeCount` times, since `index` starts at 0 or above and grows by one. -/
def publishKeypad (T : MqttTopics) (G : NukiLogLib) (entries : List KeypadEntry)
    (maxKeypadCodeCount : Nat) : List Effect :=
  let r := publishKeypadEntries T entries 0
  r.1 ++ [Effect.publishString T.mqtt_topic_keypad_json (G.serializeJsonArray r.2.1)] ++
    publishEmptySlots T maxKeypadCodeCount maxKeypadCodeCount r.2.2

/-- A keypad entry with the given id and name; used to evaluate the model. -/
def demoKeypadEntry (codeId : Nat) (name : String) : KeypadEntry where
  codeId := codeId
  enabled := 1
  name := name
  dateCreatedYear := 2024
  dateCreatedMonth := 1
  dateCreatedDay := 2
  dateCreatedHour := 3
  dateCreatedMin := 4
  dateCreatedSec := 5
  lockCount := 6

/-! ## Path building: vocabulary and index accesses -/

/-- The buffer holds, from index 0, the given text followed by the terminator. -/
def HoldsCString (m : CharBuffer) (text : List Char) : Prop :=
  (∀ j, j < text.length → m j = text.getD j NUL) ∧ m text.length = NUL

/-- The indices of `outPath` written by the `for` loop of `buildMqttPath`, in order. -/
def copyStoredPathWrites : List Char → Nat → List Nat
  | [], _ => []
  | c :: rest, offset =>
    if c = NUL then [] else offset :: copyStoredPathWrites rest (offset + 1)

/-- The `while` loop of `buildMqttPath` once more, recording the accesses instead of the
result: the indices of `path` it reads and the indices of `outPath` it writes, in order. -/
def appendSubPathAccess (path : CharBuffer) :
    Nat → CharBuffer → Nat → Nat → Option (List Nat × List Nat)
  | 0, _, _, _ => none
  | fuel + 1, outPath, i, offset =>
    if outPath i ≠ NUL then
      match appendSubPathAccess path fuel (Function.update outPath offset (path i)) (i + 1)
          (offset + 1) with
      | some (reads, writes) => some (i :: reads, offset :: writes)
      | none => none
    else some ([], [])

/-- The accesses of `buildMqttPath(path, outPath)`: the indices of `path` read and the
indices of `outPath` written (first loop, second loop, final terminator at `i + 1`). -/
def buildMqttPathAccess (mqttPathArray : List Char) (path outPath : CharBuffer) (fuel : Nat) :
    Option (List Nat × List Nat) :=
  let copied := copyStoredPath mqttPathArray outPath 0
  match appendSubPath path fuel copied.1 0 copied.2,
      appendSubPathAccess path fuel copied.1 0 copied.2 with
  | some (_, i, _), some (reads, writes) =>
    some (reads, copyStoredPathWrites mqttPathArray 0 ++ writes ++ [i + 1])
  | _, _ => none

/-! # Properties -/

/-! ## Topic matching and dispatch -/

theorem string_append_left_cancel {p a b : String} (h : p ++ a = p ++ b) : a = b := by
  have h1 := congrArg String.data h
  simp only [String.data_append] at h1
  exact String.ext (List.append_cancel_left h1)

/-- A resolved topic matches a suffix exactly when the two suffixes are equal. -/
theorem comparePrefixedPath_resolve (p a b : String) :
    comparePrefixedPath p (p ++ a) b = decide (a = b) := by
  unfold comparePrefixedPath
  by_cases hab : a = b
  · simp [hab]
  · have : p ++ a ≠ p ++ b := fun h => hab (string_append_left_cancel h)
    simp [hab, this]

theorem isReservedToken_iff (v : String) : isReservedToken v = true ↔ v ∈ reservedTokens := by
  simp [isReservedToken, reservedTokens, or_assoc]

/-! ## Path building: the buffer level agrees with the string level -/

theorem getD_ne_NUL {l : List Char} (hl : NUL ∉ l) {j : Nat} (hj : j < l.length) :
    l.getD j NUL ≠ NUL := by
  rw [List.getD_eq_getElem l NUL hj]
  intro e
  exact hl (e ▸ List.getElem_mem hj)

theorem cString_lt (body : List Char) (after : CharBuffer) {i : Nat} (hi : i < body.length) :
    cString body after i = body.getD i NUL := by
  simp [cString, hi]

theorem cString_length (body : List Char) (after : CharBuffer) :
    cString body after body.length = NUL := by
  simp [cString]

/-- The `for` loop copies the stored path and advances `offset` by its length. -/
theorem copyStoredPath_spec (pfx tail : List Char) (hpn : NUL ∉ pfx)
    (htail : ∀ c rest, tail = c :: rest → c = NUL) (out : CharBuffer) (k : Nat) :
    ∃ out', copyStoredPath (pfx ++ tail) out k = (out', k + pfx.length) ∧
      (∀ j, j < k → out' j = out j) ∧
      (∀ j, j < pfx.length → out' (k + j) = pfx.getD j NUL) := by
  induction pfx generalizing out k with
  | nil =>
    refine ⟨out, ?_, fun _ _ => rfl, fun j hj => absurd hj (by simp)⟩
    cases tail with
    | nil => simp [copyStoredPath]
    | cons c rest => simp [copyStoredPath, htail c rest rfl]
  | cons c pfx ih =>
    have hc : c ≠ NUL := fun e => hpn (by simp [e])
    have hpn' : NUL ∉ pfx := fun hm => hpn (List.mem_cons_of_mem _ hm)
    obtain ⟨out', h1, h2, h3⟩ := ih hpn' (Function.update out k c) (k + 1)
    refine ⟨out', ?_, ?_, ?_⟩
    · show copyStoredPath (c :: (pfx ++ tail)) out k = _
      rw [copyStoredPath, if_neg hc, h1, List.length_cons]
      congr 1; omega
    · intro j hj
      rw [h2 j (by omega), Function.update_noteq (by omega)]
    · intro j hj
      cases j with
      | zero =>
        rw [Nat.add_zero, h2 k (by omega), Function.update_same]
        rfl
      | succ j =>
        have := h3 j (by simpa using hj)
        rw [show k + (j + 1) = k + 1 + j by omega, this]
        rfl

/-- The `while` loop, started behind a non-empty stored path, stops when `i` reaches the
terminator that it has itself copied; until then it keeps copying `path`. -/
theorem appendSubPath_spec (pfx sfx : List Char) (after : CharBuffer) (hp : pfx ≠ [])
    (hpn : NUL ∉ pfx) (hsn : NUL ∉ sfx) (n : Nat) :
    ∀ (k : Nat) (out : CharBuffer) (fuel : Nat), k + n = pfx.length + sfx.length →
      (∀ j, j < pfx.length + k →
        out j = if j < pfx.length then pfx.getD j NUL
                else cString sfx after (j - pfx.length)) →
      n < fuel →
      ∃ out', appendSubPath (cString sfx after) fuel out k (pfx.length + k) =
          some (out', pfx.length + sfx.length, 2 * pfx.length + sfx.length) ∧
        (∀ j, j < 2 * pfx.length + sfx.length →
          out' j = if j < pfx.length then pfx.getD j NUL
                   else cString sfx after (j - pfx.length)) := by
  have hpos : 0 < pfx.length := List.length_pos.mpr hp
  induction n with
  | zero =>
    intro k out fuel hk hinv hfuel
    obtain ⟨f, rfl⟩ : ∃ f, fuel = f + 1 := ⟨fuel - 1, by omega⟩
    have hkk : k = pfx.length + sfx.length := by omega
    have hread : out k = NUL := by
      rw [hinv k (by omega), if_neg (by omega), hkk]
      simp [cString]
    refine ⟨out, ?_, ?_⟩
    · rw [appendSubPath, if_neg (by simp [hread])]
      simp only [Option.some.injEq, Prod.mk.injEq, true_and]
      omega
    · intro j hj
      exact hinv j (by omega)
  | succ n ih =>
    intro k out fuel hk hinv hfuel
    obtain ⟨f, rfl⟩ : ∃ f, fuel = f + 1 := ⟨fuel - 1, by omega⟩
    have hread : out k ≠ NUL := by
      rw [hinv k (by omega)]
      by_cases hkp : k < pfx.length
      · rw [if_pos hkp]; exact getD_ne_NUL hpn hkp
      · rw [if_neg hkp, cString_lt sfx after (by omega)]
        exact getD_ne_NUL hsn (by omega)
    have hstep := ih (k + 1)
      (Function.update out (pfx.length + k) (cString sfx after k)) f (by omega)
      (by
        intro j hj
        by_cases hjk : j = pfx.length + k
        · subst hjk
          rw [Function.update_same, if_neg (by omega)]
          congr 1; omega
        · rw [Function.update_noteq hjk]
          exact hinv j (by omega))
      (by omega)
    obtain ⟨out', h1, h2⟩ := hstep
    refine ⟨out', ?_, h2⟩
    rw [appendSubPath, if_pos hread]
    rw [show pfx.length + (k + 1) = pfx.length + k + 1 by omega] at h1
    exact h1

/-- For a non-empty stored path, `buildMqttPath` leaves in the buffer the stored path followed
by `path` and a terminator, whatever the buffer held before and whatever follows the
terminator of `path`; it stops with `i` at that terminator. -/
theorem buildMqttPath_spec (pfx sfx tail : List Char) (after out0 : CharBuffer) (fuel : Nat)
    (hp : pfx ≠ []) (hpn : NUL ∉ pfx) (hsn : NUL ∉ sfx)
    (htail : ∀ c rest, tail = c :: rest → c = NUL)
    (hfuel : pfx.length + sfx.length < fuel) :
    ∃ out, buildMqttPath (pfx ++ tail) (cString sfx after) out0 fuel =
        some (out, pfx.length + sfx.length, 2 * pfx.length + sfx.length) ∧
      (∀ j, j < pfx.length + sfx.length → out j = (pfx ++ sfx).getD j NUL) ∧
      out (pfx.length + sfx.length) = NUL := by
  have hpos : 0 < pfx.length := List.length_pos.mpr hp
  obtain ⟨out1, c1, -, c3⟩ := copyStoredPath_spec pfx tail hpn htail out0 0
  obtain ⟨out2, a1, a2⟩ := appendSubPath_spec pfx sfx after hp hpn hsn
    (pfx.length + sfx.length) 0 out1 fuel (by omega)
    (by
      intro j hj
      have hj' : j < pfx.length := by omega
      rw [if_pos hj']
      have := c3 j hj'
      rwa [Nat.zero_add] at this)
    hfuel
  refine ⟨Function.update out2 (pfx.length + sfx.length + 1) NUL, ?_, ?_, ?_⟩
  · unfold buildMqttPath
    simp only [c1, Nat.zero_add]
    rw [Nat.add_zero] at a1
    rw [a1]
  · intro j hj
    rw [Function.update_noteq (by omega), a2 j (by omega)]
    by_cases hjp : j < pfx.length
    · rw [if_pos hjp, List.getD_append _ _ _ _ hjp]
    · rw [if_neg hjp, cString_lt sfx after (by omega),
        List.getD_append_right _ _ _ _ (by omega)]
  · rw [Function.update_noteq (by omega), a2 _ (by omega), if_neg (by omega)]
    rw [show pfx.length + sfx.length - pfx.length = sfx.length by omega]
    exact cString_length sfx after

/-- `strcmp` of two buffers that hold C strings from index `k` on is zero exactly when the
two strings are equal. -/
theorem strcmpEq_spec (a b : CharBuffer) (x : List Char) :
    ∀ (y : List Char) (k fuel : Nat), NUL ∉ x → NUL ∉ y →
      (∀ j, j < x.length → a (k + j) = x.getD j NUL) → a (k + x.length) = NUL →
      (∀ j, j < y.length → b (k + j) = y.getD j NUL) → b (k + y.length) = NUL →
      y.length < fuel → strcmpEq a b fuel k = decide (x = y) := by
  induction x with
  | nil =>
    intro y k fuel _ hy _ ha0 hb hb0 hfuel
    obtain ⟨f, rfl⟩ : ∃ f, fuel = f + 1 := ⟨fuel - 1, by omega⟩
    have hak : a k = NUL := by simpa using ha0
    cases y with
    | nil =>
      have hbk : b k = NUL := by simpa using hb0
      simp [strcmpEq, hak, hbk]
    | cons d y =>
      have hbk : b k = d := by simpa using hb 0 (by simp)
      have hd : d ≠ NUL := fun e => hy (by simp [e])
      have hne : a k ≠ b k := by rw [hak, hbk]; exact fun e => hd e.symm
      simp [strcmpEq, hne]
  | cons c x ih =>
    intro y k fuel hx hy ha ha0 hb hb0 hfuel
    obtain ⟨f, rfl⟩ : ∃ f, fuel = f + 1 := ⟨fuel - 1, by omega⟩
    have hak : a k = c := by simpa using ha 0 (by simp)
    have hc : c ≠ NUL := fun e => hx (by simp [e])
    cases y with
    | nil =>
      have hbk : b k = NUL := by simpa using hb0
      have hne : a k ≠ b k := by rw [hak, hbk]; exact hc
      simp [strcmpEq, hne]
    | cons d y =>
      have hbk : b k = d := by simpa using hb 0 (by simp)
      by_cases hcd : c = d
      · subst hcd
        have hrec := ih y (k + 1) f (fun hm => hx (List.mem_cons_of_mem _ hm))
          (fun hm => hy (List.mem_cons_of_mem _ hm))
          (fun j hj => by
            have := ha (j + 1) (by simpa using hj)
            rw [show k + 1 + j = k + (j + 1) by omega, this]; rfl)
          (by rw [show k + 1 + x.length = k + (c :: x).length by simp; omega]; exact ha0)
          (fun j hj => by
            have := hb (j + 1) (by simpa using hj)
            rw [show k + 1 + j = k + (j + 1) by omega, this]; rfl)
          (by rw [show k + 1 + y.length = k + (c :: y).length by simp; omega]; exact hb0)
          (by simpa using hfuel)
        have hak' : a k ≠ NUL := by rw [hak]; exact hc
        rw [strcmpEq, if_neg (by rw [hak, hbk]; exact fun h => h rfl), if_neg hak', hrec]
        simp
      · have hne : a k ≠ b k := by rw [hak, hbk]; exact hcd
        simp [strcmpEq, hne, hcd]

/-- The buffer-level `comparePrefixedPath` agrees with the string-level one: for a non-empty
stored path and a sub-path that fit the 500 character scratch buffer, whatever that buffer
held before and whatever follows the two strings in memory, the comparison succeeds exactly
when `fullPath` is the stored path followed by the sub-path. -/
theorem comparePrefixedPathBuf_eq (_mqttPath fullPath subPath : String) (tail : List Char)
    (afterFull afterSub scratch : CharBuffer)
    (hp : _mqttPath ≠ "") (hpn : NUL ∉ _mqttPath.data) (hsn : NUL ∉ subPath.data)
    (hfn : NUL ∉ fullPath.data) (htail : ∀ c rest, tail = c :: rest → c = NUL)
    (h1 : 2 * _mqttPath.length + subPath.length ≤ 500)
    (h2 : _mqttPath.length + subPath.length + 1 < 500) :
    comparePrefixedPathBuf (_mqttPath.data ++ tail) (cString fullPath.data afterFull)
        (cString subPath.data afterSub) scratch =
      some (comparePrefixedPath _mqttPath fullPath subPath) := by
  have hp' : _mqttPath.data ≠ [] := fun e => hp (String.ext e)
  have hl1 : _mqttPath.data.length = _mqttPath.length := rfl
  have hl2 : subPath.data.length = subPath.length := rfl
  obtain ⟨out, b1, b2, b3⟩ := buildMqttPath_spec _mqttPath.data subPath.data tail afterSub
    scratch 500 hp' hpn hsn htail (by omega)
  have hcmp := strcmpEq_spec (cString fullPath.data afterFull) out fullPath.data
    (_mqttPath.data ++ subPath.data) 0 500 hfn
    (by simp only [List.mem_append, not_or]; exact ⟨hpn, hsn⟩)
    (fun j hj => by rw [Nat.zero_add]; exact cString_lt _ _ hj)
    (by rw [Nat.zero_add]; exact cString_length _ _)
    (fun j hj => by
      rw [Nat.zero_add]; exact b2 j (by simpa using hj))
    (by rw [Nat.zero_add, List.length_append]; exact b3)
    (by rw [List.length_append]; omega)
  unfold comparePrefixedPathBuf
  rw [b1]
  simp only [hl1, hl2]
  rw [if_pos ⟨h1, h2⟩, hcmp]
  unfold comparePrefixedPath
  congr 1
  by_cases he : fullPath = _mqttPath ++ subPath
  · simp [he]
  · have : fullPath.data ≠ _mqttPath.data ++ subPath.data := by
      intro e
      exact he (String.ext (by rw [e, String.data_append]))
    simp [he, this]

/-! ## Action topics -/

/-- C4 (echo rejection): on the lock-action topic and on the config-action topic, a payload
equal to "", "--", "ack", "unknown_action", "denied" or "error" makes `onMqttDataReceived`
invoke no handler and emit no publish, and leaves the whole object (so the staged keypad
fields and the query bitset) unchanged. -/
theorem echo_rejection (T : MqttTopics) (Q : QueryCommand) (s : NetworkLock)
    (h : T.inbound.Nodup) (value : String) (hv : value ∈ reservedTokens) :
    onMqttDataReceived T Q s (s._mqttPath ++ T.mqtt_topic_lock_action) value = (s, []) ∧
    onMqttDataReceived T Q s (s._mqttPath ++ T.mqtt_topic_config_action) value = (s, []) := by
  have h2 := List.nodup_reverse.mpr h
  simp only [MqttTopics.inbound, List.reverse_cons, List.reverse_nil, List.nil_append,
    List.cons_append, List.nodup_cons, List.mem_cons, List.mem_singleton, not_or,
    List.not_mem_nil, List.nodup_nil, not_false_eq_true, and_true] at h h2
  have hr := (isReservedToken_iff value).mpr hv
  constructor
  · simp [onMqttDataReceived, lockActionBlock, comparePrefixedPath_resolve, h, h2, hr]
  · simp [onMqttDataReceived, lockActionBlock, keypadAndQueryBlock, configActionBlock,
      comparePrefixedPath_resolve, h, h2, hr]

/-- Witness for C4: "ack" arriving on the lock-action topic. -/
theorem echo_rejection_witness :
    specTopics.inbound.Nodup ∧ "ack" ∈ reservedTokens ∧
    onMqttDataReceived specTopics specQuery demoLock
      (demoLock._mqttPath ++ specTopics.mqtt_topic_lock_action) "ack" = (demoLock, []) :=
  ⟨by decide, by decide,
   (echo_rejection specTopics specQuery demoLock (by decide) "ack" (by decide)).1⟩

/-- C3 (every command is answered with exactly one result token): on the lock-action topic
and on the config-action topic, for every payload that is not a reserved token,
`onMqttDataReceived` invokes the registered handler exactly once with the payload and then
emits exactly one publish, on that same topic, with the token of the handler's result
("ack" for Success, "unknown_action" for UnknownAction, "denied" for AccessDenied, "error"
for Failed); without a registered handler the only call is the publish of "error".  The
object is unchanged, and the two topics use the same mapping. -/
theorem command_answered (T : MqttTopics) (Q : QueryCommand) (s : NetworkLock)
    (h : T.inbound.Nodup) (value : String) (hv : value ∉ reservedTokens) :
    onMqttDataReceived T Q s (s._mqttPath ++ T.mqtt_topic_lock_action) value =
      (s, match s._lockActionReceivedCallback with
          | some cb =>
            [Effect.lockActionReceivedCallback value,
             Effect.publishString T.mqtt_topic_lock_action (lockResultToken (cb value))]
          | none => [Effect.publishString T.mqtt_topic_lock_action "error"]) ∧
    onMqttDataReceived T Q s (s._mqttPath ++ T.mqtt_topic_config_action) value =
      (s, match s._configUpdateReceivedCallback with
          | some cb =>
            [Effect.configUpdateReceivedCallback value,
             Effect.publishString T.mqtt_topic_config_action (configResultToken (cb value))]
          | none => [Effect.publishString T.mqtt_topic_config_action "error"]) ∧
    (∀ r : LockActionResult, configResultToken r.toConfig = lockResultToken r) := by
  have h2 := List.nodup_reverse.mpr h
  simp only [MqttTopics.inbound, List.reverse_cons, List.reverse_nil, List.nil_append,
    List.cons_append, List.nodup_cons, List.mem_cons, List.mem_singleton, not_or,
    List.not_mem_nil, List.nodup_nil, not_false_eq_true, and_true] at h h2
  have hr : isReservedToken value = false := by
    rw [Bool.eq_false_iff]; exact fun hc => hv ((isReservedToken_iff value).mp hc)
  refine ⟨?_, ?_, ?_⟩
  · cases hcb : s._lockActionReceivedCallback with
    | none =>
      simp [onMqttDataReceived, lockActionBlock, keypadAndQueryBlock, configActionBlock,
        comparePrefixedPath_resolve, h, h2, hr, hcb]
    | some cb =>
      cases hres : cb value <;>
      simp [onMqttDataReceived, lockActionBlock, keypadAndQueryBlock, configActionBlock,
        comparePrefixedPath_resolve, h, h2, hr, hcb, hres, lockResultToken]
  · cases hcb : s._configUpdateReceivedCallback with
    | none =>
      simp [onMqttDataReceived, lockActionBlock, keypadAndQueryBlock, configActionBlock,
        comparePrefixedPath_resolve, h, h2, hr, hcb]
    | some cb =>
      cases hres : cb value <;>
      simp [onMqttDataReceived, lockActionBlock, keypadAndQueryBlock, configActionBlock,
        comparePrefixedPath_resolve, h, h2, hr, hcb, hres, configResultToken]
  · intro r; cases r <;> rfl

/-- Witness for C3: "lock" on the lock-action topic is accepted by the handler and answered
with "ack"; "reboot" on the config-action topic is refused and answered with "denied". -/
theorem command_answered_witness :
    specTopics.inbound.Nodup ∧ "lock" ∉ reservedTokens ∧ "reboot" ∉ reservedTokens ∧
    onMqttDataReceived specTopics specQuery demoLock
        (demoLock._mqttPath ++ specTopics.mqtt_topic_lock_action) "lock" =
      (demoLock, [Effect.lockActionReceivedCallback "lock",
                  Effect.publishString "lock/action" "ack"]) ∧
    onMqttDataReceived specTopics specQuery demoLock
        (demoLock._mqttPath ++ specTopics.mqtt_topic_config_action) "reboot" =
      (demoLock, [Effect.configUpdateReceivedCallback "reboot",
                  Effect.publishString "config/action" "denied"]) :=
  ⟨by decide, by decide, by decide,
   (command_answered specTopics specQuery demoLock (by decide) "lock" (by decide)).1,
   (command_answered specTopics specQuery demoLock (by decide) "reboot" (by decide)).2.1⟩

/-! ## Keypad staging -/

/-- The function `strtol` returns a value of `long`. -/
theorem strtol_range (value : String) : LONG_MIN ≤ strtol value ∧ strtol value ≤ LONG_MAX := by
  unfold strtol LONG_MIN LONG_MAX
  split_ifs <;> omega

/-- The function `atoi` returns a value of `int`, for every payload. -/
theorem atoi_range (value : String) : INT_MIN ≤ atoi value ∧ atoi value ≤ INT_MAX := by
  unfold atoi toInt INT_MIN INT_MAX
  omega

/-- For a numeral within the range of `int`, `atoi` is the number read. -/
theorem atoi_eq_of_int_range (value : String) (h1 : INT_MIN ≤ strtolNumber value)
    (h2 : strtolNumber value ≤ INT_MAX) : atoi value = strtolNumber value := by
  unfold INT_MIN at h1
  unfold INT_MAX at h2
  unfold atoi toInt strtol LONG_MIN LONG_MAX
  split_ifs <;> omega

/-- The conversion of an `int` to the unsigned type keeps a value that is not negative and
adds 2^32 to a negative one; the result is a value of the unsigned type. -/
theorem toUInt_of_int (i : Int) (h1 : INT_MIN ≤ i) (h2 : i ≤ INT_MAX) :
    ((toUInt i : Nat) : Int) = (if 0 ≤ i then i else i + 4294967296) ∧
    toUInt i < 4294967296 := by
  unfold INT_MIN at h1
  unfold INT_MAX at h2
  unfold toUInt
  split_ifs <;> omega

/-- Values of `atoi` and of the unsigned conversion at numerals inside and outside the range
of `int`. -/
theorem atoi_examples :
    atoi "7" = 7 ∧ atoi "-1" = -1 ∧ toUInt (atoi "-1") = 4294967295 ∧
    atoi " +42" = 42 ∧ atoi "12abc" = 12 ∧ atoi "abc" = 0 ∧ atoi "" = 0 ∧
    atoi "2147483647" = 2147483647 ∧ atoi "-2147483648" = -2147483648 ∧
    atoi "2147483648" = -2147483648 ∧ toUInt (atoi "2147483648") = 2147483648 ∧
    atoi "99999999999999999999" = -1 ∧
    toUInt (atoi "99999999999999999999") = 4294967295 := by
  decide

/-- The character of a decimal digit is a digit and has that value. -/
theorem digitChar_isDigit (k : Nat) (h : k < 10) :
    (Nat.digitChar k).isDigit = true ∧ (Nat.digitChar k).toNat - '0'.toNat = k := by
  interval_cases k <;> decide

/-- A digit is neither white space nor a sign. -/
theorem isDigit_head (c : Char) (h : c.isDigit = true) :
    isspace c = false ∧ c ≠ '-' ∧ c ≠ '+' := by
  refine ⟨?_, ?_, ?_⟩
  · rw [Bool.eq_false_iff]
    intro hs
    simp only [isspace, Bool.or_eq_true, decide_eq_true_eq] at hs
    rcases hs with ((((hs | hs) | hs) | hs) | hs) | hs <;> subst hs <;> exact absurd h (by decide)
  · intro hs; subst hs; exact absurd h (by decide)
  · intro hs; subst hs; exact absurd h (by decide)

/-- The digit loop reads the decimal digits of `n` written in front of `ds` as `n`, and
goes on with `ds`; the first character written is a digit. -/
theorem atoiDigits_toDigitsCore (fuel : Nat) : ∀ (n : Nat) (ds : List Char), n < fuel →
    atoiDigits (Nat.toDigitsCore 10 fuel n ds) 0 = atoiDigits ds (n : Int) ∧
    ∃ c cs, Nat.toDigitsCore 10 fuel n ds = c :: cs ∧ c.isDigit = true := by
  induction fuel with
  | zero => intro n ds h; omega
  | succ fuel ih =>
    intro n ds h
    have hd := digitChar_isDigit (n % 10) (Nat.mod_lt _ (by decide))
    simp only [Nat.toDigitsCore]
    split
    · next h0 =>
      refine ⟨?_, _, _, rfl, hd.1⟩
      have hn : n % 10 = n := by omega
      simp only [atoiDigits, hd.1, if_true, hd.2]
      congr 1
      omega
    · next h0 =>
      obtain ⟨e, c, cs, hc, hcd⟩ := ih (n / 10) (Nat.digitChar (n % 10) :: ds) (by omega)
      refine ⟨?_, c, cs, hc, hcd⟩
      rw [e]
      simp only [atoiDigits, hd.1, if_true, hd.2]
      congr 1
      omega

/-- The digit loop stops at once on input that does not begin with a digit. -/
theorem atoiDigits_stop (rest : List Char) (acc : Int)
    (h : ∀ c cs, rest = c :: cs → c.isDigit = false) : atoiDigits rest acc = acc := by
  cases rest with
  | nil => rfl
  | cons c cs => simp [atoiDigits, h c cs rfl]

/-- The digits are written in front of the characters already there. -/
theorem toDigitsCore_append (fuel : Nat) : ∀ (n : Nat) (ds : List Char),
    Nat.toDigitsCore 10 fuel n ds = Nat.toDigitsCore 10 fuel n [] ++ ds := by
  induction fuel with
  | zero => intro n ds; rfl
  | succ fuel ih =>
    intro n ds
    simp only [Nat.toDigitsCore]
    split
    · rfl
    · rw [ih (n / 10) (Nat.digitChar (n % 10) :: ds), ih (n / 10) [Nat.digitChar (n % 10)],
        List.append_assoc]
      rfl

/-- The characters of a decimal rendering followed by `rest`, read by the digit loop, give
the number rendered when `rest` does not begin with a digit; the first character is a
digit. -/
theorem atoiDigits_toString_append (n : Nat) (rest : String)
    (h : ∀ c cs, rest.data = c :: cs → c.isDigit = false) :
    atoiDigits (toString n ++ rest).data 0 = (n : Int) ∧
    ∃ c cs, (toString n ++ rest).data = c :: cs ∧ c.isDigit = true := by
  obtain ⟨e, c, cs, hc, hcd⟩ := atoiDigits_toDigitsCore (n + 1) n rest.data (by omega)
  have hdata : (toString n ++ rest).data = Nat.toDigitsCore 10 (n + 1) n rest.data := by
    rw [String.data_append, toDigitsCore_append]
    rfl
  rw [hdata, e, atoiDigits_stop rest.data _ h]
  exact ⟨rfl, c, cs, hc, hcd⟩

/-- A decimal rendering of a natural number, followed by anything that does not begin with a
digit, reads as that number. -/
theorem strtolNumber_toString_append (n : Nat) (rest : String)
    (h : ∀ c cs, rest.data = c :: cs → c.isDigit = false) :
    strtolNumber (toString n ++ rest) = (n : Int) := by
  obtain ⟨e, c, cs, hc, hcd⟩ := atoiDigits_toString_append n rest h
  have hh := isDigit_head c hcd
  unfold strtolNumber
  rw [hc, List.dropWhile_cons_of_neg (by simp [hh.1])]
  split
  · next heq => cases heq; exact absurd rfl hh.2.1
  · next heq => cases heq; exact absurd rfl hh.2.2
  · rw [← hc, e]

/-- The same after a minus sign: the number is negated. -/
theorem strtolNumber_neg_toString_append (n : Nat) (rest : String)
    (h : ∀ c cs, rest.data = c :: cs → c.isDigit = false) :
    strtolNumber ("-" ++ (toString n ++ rest)) = - (n : Int) := by
  obtain ⟨e, -⟩ := atoiDigits_toString_append n rest h
  have hdata : ("-" ++ (toString n ++ rest)).data = '-' :: (toString n ++ rest).data := by
    rw [String.data_append]; rfl
  unfold strtolNumber
  rw [hdata, List.dropWhile_cons_of_neg (by decide)]
  show - atoiDigits (toString n ++ rest).data 0 = _
  rw [e]

/-- The function `atoi` on a decimal rendering within the range of `int`. -/
theorem atoi_toString_append (n : Nat) (rest : String) (hn : (n : Int) ≤ INT_MAX)
    (h : ∀ c cs, rest.data = c :: cs → c.isDigit = false) :
    atoi (toString n ++ rest) = (n : Int) ∧ toUInt (atoi (toString n ++ rest)) = n := by
  have e := strtolNumber_toString_append n rest h
  have ea : atoi (toString n ++ rest) = (n : Int) := by
    rw [atoi_eq_of_int_range _ (by rw [e]; unfold INT_MIN; omega) (by rw [e]; exact hn), e]
  refine ⟨ea, ?_⟩
  rw [ea]
  unfold INT_MAX at hn
  unfold toUInt
  omega

/-- The function `atoi` on a negated decimal rendering within the range of `int`; the
unsigned conversion of a negative result adds 2^32. -/
theorem atoi_neg_toString_append (n : Nat) (rest : String) (hn : INT_MIN ≤ - (n : Int))
    (h : ∀ c cs, rest.data = c :: cs → c.isDigit = false) :
    atoi ("-" ++ (toString n ++ rest)) = - (n : Int) ∧
    (0 < n → toUInt (atoi ("-" ++ (toString n ++ rest))) = 4294967296 - n) := by
  have e := strtolNumber_neg_toString_append n rest h
  have ea : atoi ("-" ++ (toString n ++ rest)) = - (n : Int) := by
    rw [atoi_eq_of_int_range _ (by rw [e]; exact hn) (by rw [e]; unfold INT_MAX; omega), e]
  refine ⟨ea, ?_⟩
  intro hpos
  rw [ea]
  unfold INT_MIN at hn
  unfold toUInt
  omega

/-- A field update on its staging topic changes that field only and emits nothing. -/
theorem staging_step (T : MqttTopics) (Q : QueryCommand) (s : NetworkLock)
    (h : T.inbound.Nodup) (m : StagingField × String) :
    onMqttDataReceived T Q s (s._mqttPath ++ stagingTopic T m.1) m.2 = (applyUpdate s m, []) := by
  have h2 := List.nodup_reverse.mpr h
  simp only [MqttTopics.inbound, List.reverse_cons, List.reverse_nil, List.nil_append,
    List.cons_append, List.nodup_cons, List.mem_cons, List.mem_singleton, not_or,
    List.not_mem_nil, List.nodup_nil, not_false_eq_true, and_true] at h h2
  obtain ⟨f, v⟩ := m
  cases f <;>
  simp [onMqttDataReceived, lockActionBlock, keypadAndQueryBlock, configActionBlock,
    comparePrefixedPath_resolve, h, h2, stagingTopic, applyUpdate]

theorem applyUpdate_frame (s : NetworkLock) (m : StagingField × String) :
    (applyUpdate s m)._mqttPath = s._mqttPath ∧
    (applyUpdate s m)._keypadCommandReceivedReceivedCallback =
      s._keypadCommandReceivedReceivedCallback := by
  obtain ⟨f, v⟩ := m
  cases f <;> simp [applyUpdate]

/-- A sequence of field updates folds `applyUpdate` over the object and emits nothing. -/
theorem deliver_staging (T : MqttTopics) (Q : QueryCommand) (h : T.inbound.Nodup)
    (updates : List (StagingField × String)) (s : NetworkLock) :
    deliver T Q s (stagingMessages T s._mqttPath updates) = (updates.foldl applyUpdate s, []) := by
  induction updates generalizing s with
  | nil => simp [stagingMessages, deliver]
  | cons m rest ih =>
    have hs := staging_step T Q s h m
    have hf := (applyUpdate_frame s m).1
    have := ih (applyUpdate s m)
    rw [hf] at this
    simp only [stagingMessages, List.map_cons, deliver, List.foldl_cons] at this ⊢
    rw [hs]
    simp [this]

/-- After a sequence of field updates each staged field holds its last delivery, or its
old value when the sequence has none for it. -/
theorem foldl_applyUpdate_fields (updates : List (StagingField × String)) (s : NetworkLock) :
    let r := updates.foldl applyUpdate s
    r._mqttPath = s._mqttPath ∧
    r._keypadCommandReceivedReceivedCallback = s._keypadCommandReceivedReceivedCallback ∧
    r._keypadCommandId = (match lastDelivered StagingField.id updates with
      | some v => toUInt (atoi v) | none => s._keypadCommandId) ∧
    r._keypadCommandName = (match lastDelivered StagingField.name updates with
      | some v => v | none => s._keypadCommandName) ∧
    r._keypadCommandCode = (match lastDelivered StagingField.code updates with
      | some v => v | none => s._keypadCommandCode) ∧
    r._keypadCommandEnabled = (match lastDelivered StagingField.enabled updates with
      | some v => atoi v | none => s._keypadCommandEnabled) := by
  induction updates generalizing s with
  | nil => simp [lastDelivered]
  | cons m rest ih =>
    obtain ⟨f, v⟩ := m
    have := ih (applyUpdate s (f, v))
    simp only [List.foldl_cons, lastDelivered] at this ⊢
    obtain ⟨h1, h2, h3, h4, h5, h6⟩ := this
    refine ⟨?_, ?_, ?_, ?_, ?_, ?_⟩
    · rw [h1]; cases f <;> simp [applyUpdate]
    · rw [h2]; cases f <;> simp [applyUpdate]
    · rw [h3]; cases lastDelivered StagingField.id rest <;> cases f <;> simp [applyUpdate]
    · rw [h4]; cases lastDelivered StagingField.name rest <;> cases f <;> simp [applyUpdate]
    · rw [h5]; cases lastDelivered StagingField.code rest <;> cases f <;> simp [applyUpdate]
    · rw [h6]; cases lastDelivered StagingField.enabled rest <;> cases f <;> simp [applyUpdate]

/-- A commit with a registered handler: one handler call with the staged fields, the reset,
and the five publishes. -/
theorem commit_step (T : MqttTopics) (Q : QueryCommand) (s : NetworkLock)
    (h : T.inbound.Nodup) (hcb : s._keypadCommandReceivedReceivedCallback = true)
    (value : String) (hv : value ≠ "--") :
    onMqttDataReceived T Q s (s._mqttPath ++ T.mqtt_topic_keypad_command_action) value =
      ({ s with _keypadCommandId := 0, _keypadCommandName := "--",
                _keypadCommandCode := "000000", _keypadCommandEnabled := 1 },
       [Effect.keypadCommandReceivedReceivedCallback value s._keypadCommandId
          s._keypadCommandName s._keypadCommandCode s._keypadCommandEnabled,
        Effect.publishString T.mqtt_topic_keypad_command_action "--",
        Effect.publishInt T.mqtt_topic_keypad_command_id 0,
        Effect.publishString T.mqtt_topic_keypad_command_name "--",
        Effect.publishString T.mqtt_topic_keypad_command_code "000000",
        Effect.publishInt T.mqtt_topic_keypad_command_enabled 1]) := by
  have h2 := List.nodup_reverse.mpr h
  simp only [MqttTopics.inbound, List.reverse_cons, List.reverse_nil, List.nil_append,
    List.cons_append, List.nodup_cons, List.mem_cons, List.mem_singleton, not_or,
    List.not_mem_nil, List.nodup_nil, not_false_eq_true, and_true] at h h2
  simp [onMqttDataReceived, lockActionBlock, keypadAndQueryBlock, configActionBlock,
    comparePrefixedPath_resolve, h, h2, hcb, hv]

/-- C2 (commit always resets and republishes in a fixed order): with a keypad handler
registered, for every prior object and every action-topic payload other than "--", after
`onMqttDataReceived` the staged fields are (0, "--", "000000", 1) and the publishes emitted
are exactly, in this order: action topic "--", id topic 0, name topic "--", code topic
"000000", enabled topic 1. -/
theorem commit_resets_and_republishes (T : MqttTopics) (Q : QueryCommand) (s : NetworkLock)
    (h : T.inbound.Nodup) (hcb : s._keypadCommandReceivedReceivedCallback = true)
    (value : String) (hv : value ≠ "--") :
    let r := onMqttDataReceived T Q s (s._mqttPath ++ T.mqtt_topic_keypad_command_action) value
    r.1._keypadCommandId = 0 ∧ r.1._keypadCommandName = "--" ∧
    r.1._keypadCommandCode = "000000" ∧ r.1._keypadCommandEnabled = 1 ∧
    publishes r.2 =
      [Effect.publishString T.mqtt_topic_keypad_command_action "--",
       Effect.publishInt T.mqtt_topic_keypad_command_id 0,
       Effect.publishString T.mqtt_topic_keypad_command_name "--",
       Effect.publishString T.mqtt_topic_keypad_command_code "000000",
       Effect.publishInt T.mqtt_topic_keypad_command_enabled 1] := by
  intro r
  have hr : r = _ := commit_step T Q s h hcb value hv
  rw [hr]
  simp [publishes, Effect.topic?]

/-- Witness for C2: the action "add" arriving at `demoLock`. -/
theorem commit_resets_and_republishes_witness :
    specTopics.inbound.Nodup ∧ demoLock._keypadCommandReceivedReceivedCallback = true ∧
    "add" ≠ "--" ∧
    publishes (onMqttDataReceived specTopics specQuery demoLock
        (demoLock._mqttPath ++ specTopics.mqtt_topic_keypad_command_action) "add").2 =
      [Effect.publishString "keypad/command/action" "--",
       Effect.publishInt "keypad/command/id" 0,
       Effect.publishString "keypad/command/name" "--",
       Effect.publishString "keypad/command/code" "000000",
       Effect.publishInt "keypad/command/enabled" 1] :=
  ⟨by decide, rfl, by decide,
   (commit_resets_and_republishes specTopics specQuery demoLock (by decide) rfl "add"
      (by decide)).2.2.2.2⟩

/-- C1, as stated, fails: with a handler registered, the id payload "-1" followed by the
action "add" invokes the handler with the id 4294967295, which is not `atoi("-1")` = -1: the
id is held in an unsigned member and handed over as `uint`. -/
theorem keypad_staging_negative_id_counterexample :
    demoLock._keypadCommandReceivedReceivedCallback = true ∧
    handlerCalls (onMqttDataReceived specTopics specQuery
        (deliver specTopics specQuery demoLock
          (stagingMessages specTopics demoLock._mqttPath
            [(StagingField.id, "-1"), (StagingField.name, "Alice"),
             (StagingField.code, "123456"), (StagingField.enabled, "0")])).1
        (demoLock._mqttPath ++ specTopics.mqtt_topic_keypad_command_action) "add").2 =
      [Effect.keypadCommandReceivedReceivedCallback "add" 4294967295 "Alice" "123456" 0] ∧
    atoi "-1" = -1 ∧
    ((4294967295 : Nat) : Int) ≠ atoi "-1" := by
  decide

/-- C1, amended (keypad staging round trip): with a keypad handler registered, after any
sequence of field updates on the four staging topics whose last deliveries are `id`, `name`,
`code` and `enabled` (the field updates themselves emit nothing), an action-topic message
with payload `a` other than "--" invokes the handler exactly once, with
(`a`, `u`, `name`, `code`, `atoi(enabled)`), where `u` is `atoi(id)` converted to the
unsigned 32 bit type of the id: `atoi(id)` itself when that is not negative, `atoi(id)` + 2^32
when it is negative.  Both `atoi` results are values of `int`, and for a numeral within the
range of `int` they are the number read: decimal payloads `i` and `e` up to 2147483647 give
(`a`, `i`, `name`, `code`, `e`), and the id payload "-i" gives the id 2^32 - `i`.  A further
action message `a2` with no field update in between invokes the handler with the defaults
(0, "--", "000000", 1). -/
theorem keypad_staging_round_trip (T : MqttTopics) (Q : QueryCommand) (s : NetworkLock)
    (h : T.inbound.Nodup) (hcb : s._keypadCommandReceivedReceivedCallback = true)
    (updates : List (StagingField × String)) (id name code enabled a a2 : String)
    (hid : lastDelivered StagingField.id updates = some id)
    (hname : lastDelivered StagingField.name updates = some name)
    (hcode : lastDelivered StagingField.code updates = some code)
    (henabled : lastDelivered StagingField.enabled updates = some enabled)
    (ha : a ≠ "--") (ha2 : a2 ≠ "--") :
    let r1 := deliver T Q s (stagingMessages T s._mqttPath updates)
    let r2 := onMqttDataReceived T Q r1.1 (s._mqttPath ++ T.mqtt_topic_keypad_command_action) a
    let r3 := onMqttDataReceived T Q r2.1 (s._mqttPath ++ T.mqtt_topic_keypad_command_action) a2
    r1.2 = [] ∧
    handlerCalls r2.2 =
      [Effect.keypadCommandReceivedReceivedCallback a (toUInt (atoi id)) name code
        (atoi enabled)] ∧
    ((toUInt (atoi id) : Nat) : Int) =
      (if 0 ≤ atoi id then atoi id else atoi id + 4294967296) ∧
    (INT_MIN ≤ atoi id ∧ atoi id ≤ INT_MAX) ∧
    (INT_MIN ≤ atoi enabled ∧ atoi enabled ≤ INT_MAX) ∧
    (INT_MIN ≤ strtolNumber id → strtolNumber id ≤ INT_MAX → atoi id = strtolNumber id) ∧
    (INT_MIN ≤ strtolNumber enabled → strtolNumber enabled ≤ INT_MAX →
      atoi enabled = strtolNumber enabled) ∧
    (∀ i e : Nat, (i : Int) ≤ INT_MAX → (e : Int) ≤ INT_MAX →
      id = toString i → enabled = toString e →
      handlerCalls r2.2 = [Effect.keypadCommandReceivedReceivedCallback a i name code e]) ∧
    (∀ i : Nat, 0 < i → INT_MIN ≤ - (i : Int) → id = "-" ++ toString i →
      toUInt (atoi id) = 4294967296 - i) ∧
    handlerCalls r3.2 =
      [Effect.keypadCommandReceivedReceivedCallback a2 0 "--" "000000" 1] := by
  intro r1 r2 r3
  obtain ⟨f1, f2, f3, f4, f5, f6⟩ := foldl_applyUpdate_fields updates s
  simp only [hid, hname, hcode, henabled] at f3 f4 f5 f6
  have e1 : r1 = (updates.foldl applyUpdate s, []) := deliver_staging T Q h updates s
  have c2 := commit_step T Q (updates.foldl applyUpdate s) h (by rw [f2]; exact hcb) a ha
  rw [f1, f3, f4, f5, f6] at c2
  have e2 : r2 = onMqttDataReceived T Q (updates.foldl applyUpdate s)
      (s._mqttPath ++ T.mqtt_topic_keypad_command_action) a := by
    show onMqttDataReceived T Q r1.1 _ a = _
    rw [e1]
  rw [c2] at e2
  have c3 := commit_step T Q r2.1 h (by rw [e2]; simp [f2, hcb]) a2 ha2
  have hp : r2.1._mqttPath = s._mqttPath := by rw [e2]
  rw [hp] at c3
  have hno : ∀ c cs, ("" : String).data = c :: cs → c.isDigit = false :=
    fun c cs hc => by cases hc
  have hcall : handlerCalls r2.2 =
      [Effect.keypadCommandReceivedReceivedCallback a (toUInt (atoi id)) name code
        (atoi enabled)] := by
    rw [e2]; simp [handlerCalls]
  refine ⟨by rw [e1], hcall, ?_, atoi_range id, atoi_range enabled,
    atoi_eq_of_int_range id, atoi_eq_of_int_range enabled, ?_, ?_, ?_⟩
  · exact (toUInt_of_int (atoi id) (atoi_range id).1 (atoi_range id).2).1
  · intro i e hi he hid2 hen2
    have ei := (atoi_toString_append i "" hi hno).2
    have ee := (atoi_toString_append e "" he hno).1
    rw [String.append_empty] at ei ee
    rw [hcall, hid2, hen2, ei, ee]
  · intro i hpos hi hid2
    have ei := (atoi_neg_toString_append i "" hi hno).2 hpos
    rw [String.append_empty] at ei
    rw [hid2, ei]
  · show handlerCalls (onMqttDataReceived T Q r2.1 _ a2).2 = _
    rw [c3, e2]; simp [handlerCalls]

/-- Witness for the amended C1: id=7, name="Alice", code="123456", enabled=0 followed by the
action "add" gives ("add", 7, "Alice", "123456", 0), and a further action "delete" gives the
defaults. -/
theorem keypad_staging_round_trip_witness :
    specTopics.inbound.Nodup ∧ demoLock._keypadCommandReceivedReceivedCallback = true ∧
    handlerCalls (onMqttDataReceived specTopics specQuery
        (deliver specTopics specQuery demoLock
          (stagingMessages specTopics demoLock._mqttPath
            [(StagingField.id, "7"), (StagingField.name, "Alice"),
             (StagingField.code, "123456"), (StagingField.enabled, "0")])).1
        (demoLock._mqttPath ++ specTopics.mqtt_topic_keypad_command_action) "add").2 =
      [Effect.keypadCommandReceivedReceivedCallback "add" 7 "Alice" "123456" 0] := by
  have e7 : toUInt (atoi "7") = 7 := by decide
  have e0 : atoi "0" = 0 := by decide
  have w := (keypad_staging_round_trip specTopics specQuery demoLock (by decide) rfl
    [(StagingField.id, "7"), (StagingField.name, "Alice"),
     (StagingField.code, "123456"), (StagingField.enabled, "0")]
    "7" "Alice" "123456" "0" "add" "delete" (by decide) (by decide) (by decide) (by decide)
    (by decide) (by decide)).2.1
  rw [e7, e0] at w
  exact ⟨by decide, rfl, w⟩

/-! ## Query coalescing -/

/-- A "1" on a query topic sets the mask of that category and publishes "0" there. -/
theorem query_step (T : MqttTopics) (Q : QueryCommand) (s : NetworkLock)
    (h : T.inbound.Nodup) (c : QueryCategory) :
    onMqttDataReceived T Q s (s._mqttPath ++ queryTopic T c) "1" =
      ({ s with _queryCommands := (s._queryCommands ||| queryBit Q c) % 256 },
       [Effect.publishString (queryTopic T c) "0"]) := by
  have h2 := List.nodup_reverse.mpr h
  simp only [MqttTopics.inbound, List.reverse_cons, List.reverse_nil, List.nil_append,
    List.cons_append, List.nodup_cons, List.mem_cons, List.mem_singleton, not_or,
    List.not_mem_nil, List.nodup_nil, not_false_eq_true, and_true] at h h2
  cases c <;>
  simp [onMqttDataReceived, lockActionBlock, keypadAndQueryBlock, configActionBlock,
    comparePrefixedPath_resolve, h, h2, queryTopic, queryBit, isReservedToken]

/-- Any other payload on a query topic does nothing. -/
theorem query_ignored (T : MqttTopics) (Q : QueryCommand) (s : NetworkLock)
    (h : T.inbound.Nodup) (c : QueryCategory) (value : String) (hv : value ≠ "1") :
    onMqttDataReceived T Q s (s._mqttPath ++ queryTopic T c) value = (s, []) := by
  have h2 := List.nodup_reverse.mpr h
  simp only [MqttTopics.inbound, List.reverse_cons, List.reverse_nil, List.nil_append,
    List.cons_append, List.nodup_cons, List.mem_cons, List.mem_singleton, not_or,
    List.not_mem_nil, List.nodup_nil, not_false_eq_true, and_true] at h h2
  cases c <;>
  simp [onMqttDataReceived, lockActionBlock, keypadAndQueryBlock, configActionBlock,
    comparePrefixedPath_resolve, h, h2, queryTopic, hv]

theorem or_mod_idem (q c : Nat) : ((q ||| c) % 256 ||| c) % 256 = (q ||| c) % 256 := by
  apply Nat.eq_of_testBit_eq
  intro i
  have e : (256 : Nat) = 2 ^ 8 := by norm_num
  rw [e]
  simp only [Nat.testBit_mod_two_pow, Nat.testBit_or]
  by_cases hi : i < 8 <;> simp [hi]

/-- C6 (query acknowledgement): a message on one of the four query topics with payload
exactly "1" sets the corresponding bit and emits exactly one publish, the text "0" on that
same topic; with any other payload it sets no bit and emits no publish (the object is
unchanged). -/
theorem query_acknowledgement (T : MqttTopics) (Q : QueryCommand) (s : NetworkLock)
    (h : T.inbound.Nodup) (c : QueryCategory) (value : String) :
    onMqttDataReceived T Q s (s._mqttPath ++ queryTopic T c) value =
      if value = "1" then
        ({ s with _queryCommands := (s._queryCommands ||| queryBit Q c) % 256 },
         [Effect.publishString (queryTopic T c) "0"])
      else (s, []) := by
  by_cases hv : value = "1"
  · subst hv; simp [query_step T Q s h c]
  · simp [hv, query_ignored T Q s h c value hv]

/-- Witness for C6: "1" on the battery query topic sets bit 3 and is answered with "0";
"0" on the same topic is ignored. -/
theorem query_acknowledgement_witness :
    specTopics.inbound.Nodup ∧
    (onMqttDataReceived specTopics specQuery demoLock
        (demoLock._mqttPath ++ queryTopic specTopics QueryCategory.battery) "1").1._queryCommands
      = 8 ∧
    (onMqttDataReceived specTopics specQuery demoLock
        (demoLock._mqttPath ++ queryTopic specTopics QueryCategory.battery) "1").2
      = [Effect.publishString "query/battery" "0"] ∧
    onMqttDataReceived specTopics specQuery demoLock
        (demoLock._mqttPath ++ queryTopic specTopics QueryCategory.battery) "0"
      = (demoLock, []) := by
  have w1 := query_acknowledgement specTopics specQuery demoLock (by decide)
    QueryCategory.battery "1"
  have w0 := query_acknowledgement specTopics specQuery demoLock (by decide)
    QueryCategory.battery "0"
  refine ⟨by decide, ?_, ?_, ?_⟩
  · rw [w1]; decide
  · rw [w1]; decide
  · rw [w0]; rfl

/-- C5 (query coalescing and draining): for each of the four categories, processing two
"1" messages on its query topic leaves the same object as processing one, with bitset
(old set OR the category's bit); starting from the empty set exactly one bit is set;
`queryCommands()` then returns the whole accumulated set and leaves the stored set empty,
so an immediately following `queryCommands()` returns 0. -/
theorem query_coalescing_and_draining (T : MqttTopics) (Q : QueryCommand) (s : NetworkLock)
    (h : T.inbound.Nodup) (hQ : Q.SingleBits) (hs : s._queryCommands < 256)
    (c : QueryCategory) :
    let topic := s._mqttPath ++ queryTopic T c
    let once := (onMqttDataReceived T Q s topic "1").1
    let twice := (onMqttDataReceived T Q once topic "1").1
    twice = once ∧
    once._queryCommands = s._queryCommands ||| queryBit Q c ∧
    (s._queryCommands = 0 → ∃ k, k < 8 ∧ twice._queryCommands = 2 ^ k) ∧
    (queryCommands twice).1 = s._queryCommands ||| queryBit Q c ∧
    (queryCommands twice).2._queryCommands = 0 ∧
    (queryCommands (queryCommands twice).2).1 = 0 := by
  intro topic once twice
  obtain ⟨k, hk, hbit⟩ := hQ c
  have hc : queryBit Q c < 2 ^ 8 := by rw [hbit]; exact Nat.pow_lt_pow_right (by norm_num) hk
  have hor : (s._queryCommands ||| queryBit Q c) % 256 = s._queryCommands ||| queryBit Q c :=
    Nat.mod_eq_of_lt (@Nat.or_lt_two_pow _ _ 8 hs hc)
  have e1 : once = { s with _queryCommands := (s._queryCommands ||| queryBit Q c) % 256 } := by
    show (onMqttDataReceived T Q s topic "1").1 = _
    rw [query_step T Q s h c]
  have hp : once._mqttPath = s._mqttPath := by rw [e1]
  have e2 : twice =
      { once with _queryCommands := (once._queryCommands ||| queryBit Q c) % 256 } := by
    show (onMqttDataReceived T Q once (s._mqttPath ++ queryTopic T c) "1").1 = _
    rw [← hp, query_step T Q once h c]
  have e3 : twice = once := by
    rw [e2, e1]
    simp [or_mod_idem]
  have e4 : once._queryCommands = s._queryCommands ||| queryBit Q c := by
    rw [e1]; exact hor
  refine ⟨e3, e4, ?_, ?_, rfl, rfl⟩
  · intro h0
    refine ⟨k, hk, ?_⟩
    rw [e3, e4, h0, hbit]; simp
  · show twice._queryCommands = _
    rw [e3, e4]

theorem specQuery_singleBits : specQuery.SingleBits := by
  intro c
  cases c
  · exact ⟨1, by decide, rfl⟩
  · exact ⟨0, by decide, rfl⟩
  · exact ⟨2, by decide, rfl⟩
  · exact ⟨3, by decide, rfl⟩

/-- Witness for C5: two keypad queries at `demoLock`, then a drain. -/
theorem query_coalescing_and_draining_witness :
    specTopics.inbound.Nodup ∧ specQuery.SingleBits ∧ demoLock._queryCommands < 256 ∧
    (queryCommands
      (onMqttDataReceived specTopics specQuery
        (onMqttDataReceived specTopics specQuery demoLock
          (demoLock._mqttPath ++ queryTopic specTopics QueryCategory.keypad) "1").1
        (demoLock._mqttPath ++ queryTopic specTopics QueryCategory.keypad) "1").1).1 =
      demoLock._queryCommands ||| queryBit specQuery QueryCategory.keypad :=
  ⟨by decide, specQuery_singleBits, by decide,
   (query_coalescing_and_draining specTopics specQuery demoLock (by decide)
      specQuery_singleBits (by decide) QueryCategory.keypad).2.2.2.1⟩

/-! ## The state mirror -/

theorem publishedOn_append (t : String) (a b : List Effect) :
    publishedOn t (a ++ b) = (publishedOn t a || publishedOn t b) := by
  simp [publishedOn, List.any_append]

theorem publishedOn_ite (t : String) (b : Bool) (l : List Effect) :
    publishedOn t (if b = true then l else []) = (b && publishedOn t l) := by
  cases b <;> simp [publishedOn]

theorem publishedOn_ite_pair (t k : String) (c : Prop) [Decidable c] (a b : Bool) :
    publishedOn t (if c then [Effect.publishBool k a] else [Effect.publishBool k b]) =
      (k == t) := by
  by_cases hc : c <;> simp [hc, publishedOn, Effect.topic?]

theorem publishedOn_publishState (T : MqttTopics) (t : String) (l : LockState)
    (h1 : t ≠ T.mqtt_topic_lock_ha_state) (h2 : t ≠ T.mqtt_topic_lock_binary_state) :
    publishedOn t (publishState T l) = false := by
  have h1' : ¬ T.mqtt_topic_lock_ha_state = t := fun e => h1 e.symm
  have h2' : ¬ T.mqtt_topic_lock_binary_state = t := fun e => h2 e.symm
  cases l <;> simp [publishState, publishedOn, Effect.topic?, h1', h2']

/-- Which topics `publishKeyTurnerState` publishes on: for a topic other than the two derived
channels, the disjunction of the guards of the blocks that publish on it. -/
theorem publishedOn_mirror (T : MqttTopics) (L : NukiLib) (s : NetworkLock)
    (c p : KeyTurnerState) (t : String)
    (h1 : t ≠ T.mqtt_topic_lock_ha_state) (h2 : t ≠ T.mqtt_topic_lock_binary_state) :
    publishedOn t (publishKeyTurnerState T L s c p).2 =
      ((((s._firstTunerStatePublish || c.lockState != p.lockState) &&
            c.lockState != LockState.Undefined) && (T.mqtt_topic_lock_state == t)) ||
        ((s._firstTunerStatePublish || c.trigger != p.trigger) &&
            (T.mqtt_topic_lock_trigger == t)) ||
        ((s._firstTunerStatePublish || c.lastLockAction != p.lastLockAction) &&
            (T.mqtt_topic_lock_last_lock_action == t)) ||
        ((s._firstTunerStatePublish ||
            c.lastLockActionCompletionStatus != p.lastLockActionCompletionStatus) &&
            (T.mqtt_topic_lock_completionStatus == t)) ||
        ((s._firstTunerStatePublish || c.doorSensorState != p.doorSensorState) &&
            (T.mqtt_topic_lock_door_sensor_state == t)) ||
        ((s._firstTunerStatePublish || c.criticalBatteryState != p.criticalBatteryState) &&
            ((T.mqtt_topic_battery_critical == t) ||
              (T.mqtt_topic_battery_charging == t) ||
              (T.mqtt_topic_battery_level == t))) ||
        ((s._firstTunerStatePublish || c.accessoryBatteryState != p.accessoryBatteryState) &&
            (T.mqtt_topic_battery_keypad_critical == t)) ||
        (T.mqtt_topic_lock_json == t)) := by
  have hps := publishedOn_publishState T t c.lockState h1 h2
  simp only [publishKeyTurnerState, publishedOn_append, publishedOn_ite, publishedOn_ite_pair,
    hps]
  simp only [publishedOn, Effect.topic?, List.any_cons, List.any_nil, Bool.or_false,
    Bool.and_false, Option.some_beq_some]
  simp [Bool.or_assoc]

/-- With the first-publish flag cleared and an unchanged snapshot, only the JSON is
published. -/
theorem publishKeyTurnerState_unchanged (T : MqttTopics) (L : NukiLib) (s : NetworkLock)
    (k : KeyTurnerState) (hf : s._firstTunerStatePublish = false) :
    (publishKeyTurnerState T L s k k).2 =
      [Effect.publishString T.mqtt_topic_lock_json
        (L.serializeJson (keyTurnerStateJson L s k))] := by
  simp [publishKeyTurnerState, hf]

/-- C7: for every current snapshot `c`, previous snapshot `p` and first-publish flag `f`,
`publishKeyTurnerState` publishes on the trigger, last-lock-action, completion-status and
door-sensor-state topics exactly when `f` holds or that field of `c` differs from `p`; it
publishes on the primary lock-state topic exactly when (`f` holds or the lock state
differs) and the lock state is not `Undefined`.  In particular an `Undefined` lock state
never publishes on the primary state topic, even when `f` is true. -/
theorem differential_publish_rule (T : MqttTopics) (L : NukiLib) (s : NetworkLock)
    (c p : KeyTurnerState) (h : T.stateTopics.Nodup) :
    let f := s._firstTunerStatePublish
    let trace := (publishKeyTurnerState T L s c p).2
    (publishedOn T.mqtt_topic_lock_trigger trace = true ↔ (f = true ∨ c.trigger ≠ p.trigger)) ∧
    (publishedOn T.mqtt_topic_lock_last_lock_action trace = true ↔
      (f = true ∨ c.lastLockAction ≠ p.lastLockAction)) ∧
    (publishedOn T.mqtt_topic_lock_completionStatus trace = true ↔
      (f = true ∨ c.lastLockActionCompletionStatus ≠ p.lastLockActionCompletionStatus)) ∧
    (publishedOn T.mqtt_topic_lock_door_sensor_state trace = true ↔
      (f = true ∨ c.doorSensorState ≠ p.doorSensorState)) ∧
    (publishedOn T.mqtt_topic_lock_state trace = true ↔
      ((f = true ∨ c.lockState ≠ p.lockState) ∧ c.lockState ≠ LockState.Undefined)) ∧
    (c.lockState = LockState.Undefined → publishedOn T.mqtt_topic_lock_state trace = false) := by
  intro f trace
  have h2 := List.nodup_reverse.mpr h
  simp only [MqttTopics.stateTopics, List.reverse_cons, List.reverse_nil, List.nil_append,
    List.cons_append, List.nodup_cons, List.mem_cons, List.mem_singleton, not_or,
    List.not_mem_nil, List.nodup_nil, not_false_eq_true, and_true] at h h2
  refine ⟨?_, ?_, ?_, ?_, ?_, ?_⟩
  · show publishedOn _ (publishKeyTurnerState T L s c p).2 = true ↔ _
    rw [publishedOn_mirror T L s c p _ (by simp [h, h2]) (by simp [h, h2])]
    simp [h, h2]
  · show publishedOn _ (publishKeyTurnerState T L s c p).2 = true ↔ _
    rw [publishedOn_mirror T L s c p _ (by simp [h, h2]) (by simp [h, h2])]
    simp [h, h2]
  · show publishedOn _ (publishKeyTurnerState T L s c p).2 = true ↔ _
    rw [publishedOn_mirror T L s c p _ (by simp [h, h2]) (by simp [h, h2])]
    simp [h, h2]
  · show publishedOn _ (publishKeyTurnerState T L s c p).2 = true ↔ _
    rw [publishedOn_mirror T L s c p _ (by simp [h, h2]) (by simp [h, h2])]
    simp [h, h2]
  · show publishedOn _ (publishKeyTurnerState T L s c p).2 = true ↔ _
    rw [publishedOn_mirror T L s c p _ (by simp [h, h2]) (by simp [h, h2])]
    simp [h, h2]
  · intro hu
    show publishedOn _ (publishKeyTurnerState T L s c p).2 = false
    rw [publishedOn_mirror T L s c p _ (by simp [h, h2]) (by simp [h, h2])]
    simp [h, h2, hu]

/-- Witness for C7: `demoLock`, whose first-publish flag holds, publishes the snapshot on the
trigger topic. -/
theorem differential_publish_rule_witness :
    specTopics.stateTopics.Nodup ∧
    (publishedOn specTopics.mqtt_topic_lock_trigger
        (publishKeyTurnerState specTopics demoLib demoLock demoState demoState).2 = true ↔
      (demoLock._firstTunerStatePublish = true ∨ demoState.trigger ≠ demoState.trigger)) :=
  ⟨by decide,
   (differential_publish_rule specTopics demoLib demoLock demoState demoState (by decide)).1⟩

/-- C8: once the first publish has happened (first-publish flag false),
`publishKeyTurnerState(s, s)` emits exactly one publish, the full-state JSON on the json
topic, and nothing on any diffed topic; the flag stays false, so a repeated call with the
unchanged snapshot again produces only the full-state publish. -/
theorem mirror_idempotence (T : MqttTopics) (L : NukiLib) (s : NetworkLock)
    (k : KeyTurnerState) (hf : s._firstTunerStatePublish = false) :
    (publishKeyTurnerState T L s k k).2 =
      [Effect.publishString T.mqtt_topic_lock_json
        (L.serializeJson (keyTurnerStateJson L s k))] ∧
    (publishKeyTurnerState T L s k k).1._firstTunerStatePublish = false ∧
    (publishKeyTurnerState T L (publishKeyTurnerState T L s k k).1 k k).2 =
      (publishKeyTurnerState T L s k k).2 := by
  refine ⟨publishKeyTurnerState_unchanged T L s k hf, rfl, ?_⟩
  rw [publishKeyTurnerState_unchanged T L _ k rfl, publishKeyTurnerState_unchanged T L s k hf]
  rfl

/-- Witness for C8: the object left by a first mirror call has the flag cleared, and the
next call with the unchanged snapshot publishes the JSON only. -/
theorem mirror_idempotence_witness :
    (publishKeyTurnerState specTopics demoLib demoLock demoState demoState).1._firstTunerStatePublish
      = false ∧
    (publishKeyTurnerState specTopics demoLib
        (publishKeyTurnerState specTopics demoLib demoLock demoState demoState).1
        demoState demoState).2 =
      [Effect.publishString specTopics.mqtt_topic_lock_json
        (demoLib.serializeJson (keyTurnerStateJson demoLib
          (publishKeyTurnerState specTopics demoLib demoLock demoState demoState).1
          demoState))] :=
  ⟨rfl, (mirror_idempotence specTopics demoLib
    (publishKeyTurnerState specTopics demoLib demoLock demoState demoState).1 demoState rfl).1⟩

/-- C9, as stated, fails: after an earlier mirror call the reconnect observer fires and
sets the flag, yet the next `publishKeyTurnerState` call with the unchanged snapshot emits
the JSON publish only (nothing on the trigger topic or any other diffed topic). -/
theorem reconnect_republish_counterexample :
    (reconnectedCallback
        (publishKeyTurnerState specTopics demoLib demoLock demoState demoState).1)._reconnected
      = true ∧
    (publishKeyTurnerState specTopics demoLib
        (reconnectedCallback
          (publishKeyTurnerState specTopics demoLib demoLock demoState demoState).1)
        demoState demoState).2.map Effect.topic? = [some specTopics.mqtt_topic_lock_json] ∧
    publishedOn specTopics.mqtt_topic_lock_trigger
      (publishKeyTurnerState specTopics demoLib
        (reconnectedCallback
          (publishKeyTurnerState specTopics demoLib demoLock demoState demoState).1)
        demoState demoState).2 = false := by
  decide

/-- C9, amended: the reconnect observer only raises the reconnect flag, which `reconnected()`
returns once and clears; `publishKeyTurnerState` neither reads nor changes that flag and
emits the same calls with or without it.  The next mirror call republishes every diffable
field (lock state when not `Undefined`, trigger, last lock action, completion status,
door-sensor state and the battery group), whatever the previous snapshot, when the
first-publish flag still holds; every mirror call clears that flag, and once it is cleared
an unchanged snapshot yields the JSON publish alone. -/
theorem reconnect_sets_flag_only (T : MqttTopics) (L : NukiLib) (s : NetworkLock)
    (c p : KeyTurnerState) (h : T.stateTopics.Nodup) :
    let s' := reconnectedCallback s
    let trace := (publishKeyTurnerState T L s' c p).2
    s'._reconnected = true ∧
    s'._firstTunerStatePublish = s._firstTunerStatePublish ∧
    (reconnected s').1 = true ∧ (reconnected (reconnected s').2).1 = false ∧
    trace = (publishKeyTurnerState T L s c p).2 ∧
    (publishKeyTurnerState T L s' c p).1._reconnected = true ∧
    (s._firstTunerStatePublish = true →
      (c.lockState ≠ LockState.Undefined → publishedOn T.mqtt_topic_lock_state trace = true) ∧
      publishedOn T.mqtt_topic_lock_trigger trace = true ∧
      publishedOn T.mqtt_topic_lock_last_lock_action trace = true ∧
      publishedOn T.mqtt_topic_lock_completionStatus trace = true ∧
      publishedOn T.mqtt_topic_lock_door_sensor_state trace = true ∧
      publishedOn T.mqtt_topic_battery_critical trace = true ∧
      publishedOn T.mqtt_topic_battery_charging trace = true ∧
      publishedOn T.mqtt_topic_battery_level trace = true ∧
      publishedOn T.mqtt_topic_battery_keypad_critical trace = true) ∧
    (s._firstTunerStatePublish = false → c = p →
      trace = [Effect.publishString T.mqtt_topic_lock_json
        (L.serializeJson (keyTurnerStateJson L s c))]) ∧
    (publishKeyTurnerState T L s' c p).1._firstTunerStatePublish = false := by
  intro s' trace
  have h2 := List.nodup_reverse.mpr h
  simp only [MqttTopics.stateTopics, List.reverse_cons, List.reverse_nil, List.nil_append,
    List.cons_append, List.nodup_cons, List.mem_cons, List.mem_singleton, not_or,
    List.not_mem_nil, List.nodup_nil, not_false_eq_true, and_true] at h h2
  have et : trace = (publishKeyTurnerState T L s c p).2 := rfl
  refine ⟨rfl, rfl, rfl, rfl, et, rfl, ?_, ?_, rfl⟩
  · intro hf
    refine ⟨?_, ?_, ?_, ?_, ?_, ?_, ?_, ?_, ?_⟩
    · intro hu
      rw [et, publishedOn_mirror T L s c p _ (by simp [h, h2]) (by simp [h, h2])]
      simp [hf, hu]
    all_goals
      rw [et, publishedOn_mirror T L s c p _ (by simp [h, h2]) (by simp [h, h2])]
      simp [hf]
  · intro hf hcp
    subst hcp
    rw [et]
    exact publishKeyTurnerState_unchanged T L s c hf

/-- Witness for the amended C9: `demoLock`, whose first-publish flag holds, republishes the
trigger after the reconnect observer has fired, with an unchanged snapshot. -/
theorem reconnect_sets_flag_only_witness :
    specTopics.stateTopics.Nodup ∧ demoLock._firstTunerStatePublish = true ∧
    publishedOn specTopics.mqtt_topic_lock_trigger
      (publishKeyTurnerState specTopics demoLib (reconnectedCallback demoLock)
        demoState demoState).2 = true :=
  ⟨by decide, rfl,
   ((reconnect_sets_flag_only specTopics demoLib demoLock demoState demoState
      (by decide)).2.2.2.2.2.2.1 rfl).2.1⟩

/-! ## Derived state -/

theorem LockState.mem_all (l : LockState) : l ∈ LockState.all := by
  cases l <;> simp [LockState.all]

/-- C10, as stated, fails: `publishState` renders four lock states, not six, as "unlocked"
on the derived state channel. -/
theorem derived_state_six_unlocked_counterexample :
    (statesRenderedAs specTopics "unlocked").length = 4 ∧
    ¬ (statesRenderedAs specTopics "unlocked").length = 6 := by
  decide

/-- C10, amended: on the derived state channel `publishState` renders Locked as "locked",
Locking as "locking" and Unlocking as "unlocking", folds exactly four lock states
(Unlocked, Unlatched, UnlockedLnga, Unlatching) into "unlocked" and exactly four
(Uncalibrated, Calibration, BootRun, MotorBlocked) into "jammed". -/
theorem derived_state_mapping (T : MqttTopics)
    (h : T.mqtt_topic_lock_ha_state ≠ T.mqtt_topic_lock_binary_state) :
    haStateOf T LockState.Locked = ["locked"] ∧
    haStateOf T LockState.Locking = ["locking"] ∧
    haStateOf T LockState.Unlocking = ["unlocking"] ∧
    statesRenderedAs T "unlocked" =
      [LockState.Unlocked, LockState.Unlatched, LockState.UnlockedLnga, LockState.Unlatching] ∧
    (statesRenderedAs T "unlocked").length = 4 ∧
    statesRenderedAs T "jammed" =
      [LockState.Uncalibrated, LockState.Calibration, LockState.BootRun,
       LockState.MotorBlocked] ∧
    (statesRenderedAs T "jammed").length = 4 ∧
    (∀ l : LockState, l ∈ LockState.all) ∧ LockState.all.Nodup := by
  have h' : ¬ T.mqtt_topic_lock_binary_state = T.mqtt_topic_lock_ha_state := fun e => h e.symm
  have e1 : statesRenderedAs T "unlocked" =
      [LockState.Unlocked, LockState.Unlatched, LockState.UnlockedLnga,
       LockState.Unlatching] := by
    simp [statesRenderedAs, LockState.all, List.filter, haStateOf, publishState, h']
  have e2 : statesRenderedAs T "jammed" =
      [LockState.Uncalibrated, LockState.Calibration, LockState.BootRun,
       LockState.MotorBlocked] := by
    simp [statesRenderedAs, LockState.all, List.filter, haStateOf, publishState, h']
  refine ⟨?_, ?_, ?_, e1, by rw [e1]; rfl, e2, by rw [e2]; rfl, LockState.mem_all,
    by decide⟩ <;>
  simp [haStateOf, publishState, h']

/-- Witness for the amended C10, with the catalog of the specification. -/
theorem derived_state_mapping_witness :
    specTopics.mqtt_topic_lock_ha_state ≠ specTopics.mqtt_topic_lock_binary_state ∧
    statesRenderedAs specTopics "unlocked" =
      [LockState.Unlocked, LockState.Unlatched, LockState.UnlockedLnga, LockState.Unlatching] :=
  ⟨by decide, (derived_state_mapping specTopics (by decide)).2.2.2.1⟩

/-! ## Keypad commit: placeholder, missing handler, malformed numbers -/

/-- The placeholder "--" on the action topic, with a handler registered, is ignored. -/
theorem commit_placeholder_step (T : MqttTopics) (Q : QueryCommand) (s : NetworkLock)
    (h : T.inbound.Nodup) (hcb : s._keypadCommandReceivedReceivedCallback = true) :
    onMqttDataReceived T Q s (s._mqttPath ++ T.mqtt_topic_keypad_command_action) "--" =
      (s, []) := by
  have h2 := List.nodup_reverse.mpr h
  simp only [MqttTopics.inbound, List.reverse_cons, List.reverse_nil, List.nil_append,
    List.cons_append, List.nodup_cons, List.mem_cons, List.mem_singleton, not_or,
    List.not_mem_nil, List.nodup_nil, not_false_eq_true, and_true] at h h2
  simp [onMqttDataReceived, lockActionBlock, keypadAndQueryBlock, comparePrefixedPath_resolve,
    h, h2, hcb]

/-- Without a handler, any payload on the action topic is ignored. -/
theorem commit_no_handler_step (T : MqttTopics) (Q : QueryCommand) (s : NetworkLock)
    (h : T.inbound.Nodup) (hcb : s._keypadCommandReceivedReceivedCallback = false)
    (value : String) :
    onMqttDataReceived T Q s (s._mqttPath ++ T.mqtt_topic_keypad_command_action) value =
      (s, []) := by
  have h2 := List.nodup_reverse.mpr h
  simp only [MqttTopics.inbound, List.reverse_cons, List.reverse_nil, List.nil_append,
    List.cons_append, List.nodup_cons, List.mem_cons, List.mem_singleton, not_or,
    List.not_mem_nil, List.nodup_nil, not_false_eq_true, and_true] at h h2
  simp [onMqttDataReceived, lockActionBlock, keypadAndQueryBlock, configActionBlock,
    comparePrefixedPath_resolve, h, h2, hcb]

/-- C18 (a keypad commit without a registered handler is dropped silently): when no keypad
handler is registered, an action-topic message with any payload emits nothing and leaves
the whole object, so all four staged fields, unchanged (they are not reset). -/
theorem commit_without_handler_dropped (T : MqttTopics) (Q : QueryCommand) (s : NetworkLock)
    (h : T.inbound.Nodup) (hcb : s._keypadCommandReceivedReceivedCallback = false)
    (value : String) :
    let r := onMqttDataReceived T Q s (s._mqttPath ++ T.mqtt_topic_keypad_command_action) value
    r.2 = [] ∧ r.1 = s ∧
    r.1._keypadCommandId = s._keypadCommandId ∧ r.1._keypadCommandName = s._keypadCommandName ∧
    r.1._keypadCommandCode = s._keypadCommandCode ∧
    r.1._keypadCommandEnabled = s._keypadCommandEnabled := by
  intro r
  have hr : r = (s, []) := commit_no_handler_step T Q s h hcb value
  rw [hr]
  exact ⟨rfl, rfl, rfl, rfl, rfl, rfl⟩

/-- Witness for C18: "add" arriving while (7, "Alice", "123456", 0) is staged and no handler
is registered; the staged id is still 7. -/
theorem commit_without_handler_dropped_witness :
    specTopics.inbound.Nodup ∧
    stagedLockNoHandler._keypadCommandReceivedReceivedCallback = false ∧
    (onMqttDataReceived specTopics specQuery stagedLockNoHandler
        (stagedLockNoHandler._mqttPath ++ specTopics.mqtt_topic_keypad_command_action)
        "add").2 = [] ∧
    (onMqttDataReceived specTopics specQuery stagedLockNoHandler
        (stagedLockNoHandler._mqttPath ++ specTopics.mqtt_topic_keypad_command_action)
        "add").1._keypadCommandId = 7 :=
  ⟨by decide, rfl,
   (commit_without_handler_dropped specTopics specQuery stagedLockNoHandler (by decide) rfl
      "add").1,
   (commit_without_handler_dropped specTopics specQuery stagedLockNoHandler (by decide) rfl
      "add").2.2.1⟩

/-- C15, as stated, fails: with a handler registered and (7, "Alice", "123456", 0) staged,
the placeholder "--" on the action topic leaves the staged fields as they are instead of
resetting them to (0, "--", "000000", 1). -/
theorem reset_on_placeholder_counterexample :
    stagedLock._keypadCommandReceivedReceivedCallback = true ∧
    (onMqttDataReceived specTopics specQuery stagedLock
        (stagedLock._mqttPath ++ specTopics.mqtt_topic_keypad_command_action)
        "--").1._keypadCommandId = 7 ∧
    (onMqttDataReceived specTopics specQuery stagedLock
        (stagedLock._mqttPath ++ specTopics.mqtt_topic_keypad_command_action)
        "--").1._keypadCommandName = "Alice" ∧
    ¬ (onMqttDataReceived specTopics specQuery stagedLock
        (stagedLock._mqttPath ++ specTopics.mqtt_topic_keypad_command_action)
        "--").1._keypadCommandId = 0 := by
  decide

/-- C15, amended: with a keypad handler registered, for every staged state, after an
action-topic message whose payload is a real action (anything but "--") the staged fields
equal the defaults (0, "--", "000000", 1); the placeholder "--" is ignored: no handler
call, no publish, and the object, staged fields included, is unchanged. -/
theorem reset_after_real_action_only (T : MqttTopics) (Q : QueryCommand) (s : NetworkLock)
    (h : T.inbound.Nodup) (hcb : s._keypadCommandReceivedReceivedCallback = true)
    (value : String) :
    let r := onMqttDataReceived T Q s (s._mqttPath ++ T.mqtt_topic_keypad_command_action) value
    (value ≠ "--" →
      r.1._keypadCommandId = 0 ∧ r.1._keypadCommandName = "--" ∧
      r.1._keypadCommandCode = "000000" ∧ r.1._keypadCommandEnabled = 1) ∧
    (value = "--" → r = (s, [])) := by
  intro r
  constructor
  · intro hv
    have hr : r = _ := commit_step T Q s h hcb value hv
    rw [hr]
    exact ⟨rfl, rfl, rfl, rfl⟩
  · intro hv
    subst hv
    exact commit_placeholder_step T Q s h hcb

/-- Witness for the amended C15: "add" resets the staged fields of `stagedLock`, "--" leaves
them. -/
theorem reset_after_real_action_only_witness :
    specTopics.inbound.Nodup ∧ stagedLock._keypadCommandReceivedReceivedCallback = true ∧
    (onMqttDataReceived specTopics specQuery stagedLock
        (stagedLock._mqttPath ++ specTopics.mqtt_topic_keypad_command_action)
        "add").1._keypadCommandId = 0 ∧
    onMqttDataReceived specTopics specQuery stagedLock
        (stagedLock._mqttPath ++ specTopics.mqtt_topic_keypad_command_action) "--" =
      (stagedLock, []) :=
  ⟨by decide, rfl,
   ((reset_after_real_action_only specTopics specQuery stagedLock (by decide) rfl "add").1
      (by decide)).1,
   (reset_after_real_action_only specTopics specQuery stagedLock (by decide) rfl "--").2 rfl⟩
/-- A payload without a numeric leading part reads as the number 0. -/
theorem strtolNumber_eq_zero_of_no_lead (value : String) (h : hasNumericLead value = false) :
    strtolNumber value = 0 := by
  unfold hasNumericLead at h
  unfold strtolNumber
  split at h
  · next rest c tl heq =>
    rw [heq]
    simp [atoiDigits, h]
  · next rest c tl heq =>
    rw [heq]
    simp [atoiDigits, h]
  · next rest c tl hm hp heq =>
    rw [heq]
    split
    · next r2 heq2 =>
      cases heq2
      cases tl with
      | nil => simp [atoiDigits]
      | cons d tl2 => exact (hm d tl2 rfl rfl).elim
    · next r2 heq2 =>
      cases heq2
      cases tl with
      | nil => simp [atoiDigits]
      | cons d tl2 => exact (hp d tl2 rfl rfl).elim
    · simp [atoiDigits, h]
  · next rest heq =>
    rw [heq]
    simp [atoiDigits]

/-- A payload without a numeric leading part is parsed as 0 by `atoi`. -/
theorem atoi_eq_zero_of_no_lead (value : String) (h : hasNumericLead value = false) :
    atoi value = 0 := by
  have h0 := strtolNumber_eq_zero_of_no_lead value h
  rw [atoi_eq_of_int_range value (by rw [h0]; decide) (by rw [h0]; decide), h0]

/-- C16, as stated, fails: "12abc" is not a number, yet on the id topic it stages the id 12
and on the enabled topic it stages 12, not 0. -/
theorem malformed_number_counterexample :
    isDecimalNumber "12abc" = false ∧
    (onMqttDataReceived specTopics specQuery demoLock
        (demoLock._mqttPath ++ specTopics.mqtt_topic_keypad_command_id)
        "12abc").1._keypadCommandId = 12 ∧
    (onMqttDataReceived specTopics specQuery demoLock
        (demoLock._mqttPath ++ specTopics.mqtt_topic_keypad_command_enabled)
        "12abc").1._keypadCommandEnabled = 12 := by
  decide

/-- C16, amended: every payload on the keypad id or keypad enabled staging topic is accepted:
`onMqttDataReceived` stores `atoi` of the payload in that staged field, emits no publish and
reports no error.  The value of `atoi` is always a value of `int`; for the id it is converted
to the unsigned type (2^32 is added to a negative value).  The stored value is 0 whenever the
payload has no numeric leading part (no decimal digit after optional white space and at most
one sign); a numeric leading part within the range of `int`, followed by other characters or
not, is stored as that number: the decimal rendering of `n` up to 2147483647 followed by
anything that does not begin with a digit stores `n`, and with a minus sign in front it
stores -`n` in the enabled field and 2^32 - `n` in the id field. -/
theorem malformed_number_parsed_by_atoi (T : MqttTopics) (Q : QueryCommand) (s : NetworkLock)
    (h : T.inbound.Nodup) (value : String) :
    onMqttDataReceived T Q s (s._mqttPath ++ T.mqtt_topic_keypad_command_id) value =
      ({ s with _keypadCommandId := toUInt (atoi value) }, []) ∧
    onMqttDataReceived T Q s (s._mqttPath ++ T.mqtt_topic_keypad_command_enabled) value =
      ({ s with _keypadCommandEnabled := atoi value }, []) ∧
    (hasNumericLead value = false → toUInt (atoi value) = 0 ∧ atoi value = 0) ∧
    (INT_MIN ≤ atoi value ∧ atoi value ≤ INT_MAX) ∧
    ((toUInt (atoi value) : Nat) : Int) =
      (if 0 ≤ atoi value then atoi value else atoi value + 4294967296) ∧
    toUInt (atoi value) < 4294967296 ∧
    (INT_MIN ≤ strtolNumber value → strtolNumber value ≤ INT_MAX →
      atoi value = strtolNumber value) ∧
    (∀ (n : Nat) (rest : String), (n : Int) ≤ INT_MAX →
      (∀ c cs, rest.data = c :: cs → c.isDigit = false) → value = toString n ++ rest →
      atoi value = (n : Int) ∧ toUInt (atoi value) = n) ∧
    (∀ (n : Nat) (rest : String), INT_MIN ≤ - (n : Int) →
      (∀ c cs, rest.data = c :: cs → c.isDigit = false) →
      value = "-" ++ (toString n ++ rest) →
      atoi value = - (n : Int) ∧ (0 < n → toUInt (atoi value) = 4294967296 - n)) := by
  have hu := toUInt_of_int (atoi value) (atoi_range value).1 (atoi_range value).2
  refine ⟨staging_step T Q s h (StagingField.id, value),
    staging_step T Q s h (StagingField.enabled, value), ?_, atoi_range value, hu.1, hu.2,
    atoi_eq_of_int_range value, ?_, ?_⟩
  · intro hl
    have h0 := atoi_eq_zero_of_no_lead value hl
    exact ⟨by rw [h0]; rfl, h0⟩
  · intro n rest hn hrest hv
    rw [hv]
    exact atoi_toString_append n rest hn hrest
  · intro n rest hn hrest hv
    rw [hv]
    exact atoi_neg_toString_append n rest hn hrest

/-- Witness for the amended C16: "abc" on the id topic of `stagedLock` stages the id 0, and
"12abc", the rendering of 12 followed by "abc", is parsed as 12. -/
theorem malformed_number_parsed_by_atoi_witness :
    specTopics.inbound.Nodup ∧ hasNumericLead "abc" = false ∧
    onMqttDataReceived specTopics specQuery stagedLock
        (stagedLock._mqttPath ++ specTopics.mqtt_topic_keypad_command_id) "abc" =
      ({ stagedLock with _keypadCommandId := toUInt (atoi "abc") }, []) ∧
    toUInt (atoi "abc") = 0 ∧
    "12abc" = toString 12 ++ "abc" ∧ toUInt (atoi "12abc") = 12 :=
  ⟨by decide, by decide,
   (malformed_number_parsed_by_atoi specTopics specQuery stagedLock (by decide) "abc").1,
   ((malformed_number_parsed_by_atoi specTopics specQuery stagedLock (by decide)
      "abc").2.2.1 (by decide)).1,
   by decide,
   ((malformed_number_parsed_by_atoi specTopics specQuery stagedLock (by decide)
      "12abc").2.2.2.2.2.2.2.1 12 "abc" (by decide)
      (fun c cs hc => by cases hc; decide) (by decide)).2⟩

/-! ## No feedback loop -/

/-- A topic that resolves to none of the subscribed suffixes is ignored. -/
theorem unmatched_step (T : MqttTopics) (Q : QueryCommand) (s : NetworkLock)
    (topic value : String) (hno : ∀ x, x ∈ T.inbound → topic ≠ s._mqttPath ++ x) :
    onMqttDataReceived T Q s topic value = (s, []) := by
  simp only [MqttTopics.inbound, List.mem_cons, List.mem_singleton, List.not_mem_nil,
    or_false, forall_eq_or_imp, forall_eq] at hno
  simp [onMqttDataReceived, lockActionBlock, keypadAndQueryBlock, configActionBlock,
    comparePrefixedPath, hno]

/-- The reset topic: a restart on "1", nothing otherwise; no publish either way. -/
theorem reset_step (T : MqttTopics) (Q : QueryCommand) (s : NetworkLock)
    (h : T.inbound.Nodup) (value : String) :
    onMqttDataReceived T Q s (s._mqttPath ++ T.mqtt_topic_reset) value =
      if value = "1" then (s, [Effect.clearWifiFallback, Effect.restartEsp]) else (s, []) := by
  have h2 := List.nodup_reverse.mpr h
  simp only [MqttTopics.inbound, List.reverse_cons, List.reverse_nil, List.nil_append,
    List.cons_append, List.nodup_cons, List.mem_cons, List.mem_singleton, not_or,
    List.not_mem_nil, List.nodup_nil, not_false_eq_true, and_true] at h h2
  by_cases hv : value = "1" <;>
  simp [onMqttDataReceived, lockActionBlock, keypadAndQueryBlock, configActionBlock,
    comparePrefixedPath_resolve, h, h2, hv]

/-- A reserved token on an action topic is ignored. -/
theorem action_echo_step (T : MqttTopics) (Q : QueryCommand) (s : NetworkLock)
    (h : T.inbound.Nodup) (value : String) (hv : isReservedToken value = true) :
    onMqttDataReceived T Q s (s._mqttPath ++ T.mqtt_topic_lock_action) value = (s, []) ∧
    onMqttDataReceived T Q s (s._mqttPath ++ T.mqtt_topic_config_action) value = (s, []) := by
  have h2 := List.nodup_reverse.mpr h
  simp only [MqttTopics.inbound, List.reverse_cons, List.reverse_nil, List.nil_append,
    List.cons_append, List.nodup_cons, List.mem_cons, List.mem_singleton, not_or,
    List.not_mem_nil, List.nodup_nil, not_false_eq_true, and_true] at h h2
  constructor
  · simp [onMqttDataReceived, lockActionBlock, comparePrefixedPath_resolve, h, h2, hv]
  · simp [onMqttDataReceived, lockActionBlock, keypadAndQueryBlock, configActionBlock,
      comparePrefixedPath_resolve, h, h2, hv]

/-- A command on the lock action topic: the handler is called, its result is published. -/
theorem lock_action_step (T : MqttTopics) (Q : QueryCommand) (s : NetworkLock)
    (h : T.inbound.Nodup) (value : String) (hv : isReservedToken value = false) :
    onMqttDataReceived T Q s (s._mqttPath ++ T.mqtt_topic_lock_action) value =
      (s, match s._lockActionReceivedCallback with
          | some cb =>
            [Effect.lockActionReceivedCallback value,
             Effect.publishString T.mqtt_topic_lock_action (lockResultToken (cb value))]
          | none => [Effect.publishString T.mqtt_topic_lock_action "error"]) := by
  have h2 := List.nodup_reverse.mpr h
  simp only [MqttTopics.inbound, List.reverse_cons, List.reverse_nil, List.nil_append,
    List.cons_append, List.nodup_cons, List.mem_cons, List.mem_singleton, not_or,
    List.not_mem_nil, List.nodup_nil, not_false_eq_true, and_true] at h h2
  cases hcb : s._lockActionReceivedCallback with
  | none =>
    simp [onMqttDataReceived, lockActionBlock, keypadAndQueryBlock, configActionBlock,
      comparePrefixedPath_resolve, h, h2, hv, hcb]
  | some cb =>
    cases hres : cb value <;>
    simp [onMqttDataReceived, lockActionBlock, keypadAndQueryBlock, configActionBlock,
      comparePrefixedPath_resolve, h, h2, hv, hcb, hres, lockResultToken]

/-- A command on the configuration action topic: the handler is called, its result is
published. -/
theorem config_action_step (T : MqttTopics) (Q : QueryCommand) (s : NetworkLock)
    (h : T.inbound.Nodup) (value : String) (hv : isReservedToken value = false) :
    onMqttDataReceived T Q s (s._mqttPath ++ T.mqtt_topic_config_action) value =
      (s, match s._configUpdateReceivedCallback with
          | some cb =>
            [Effect.configUpdateReceivedCallback value,
             Effect.publishString T.mqtt_topic_config_action (configResultToken (cb value))]
          | none => [Effect.publishString T.mqtt_topic_config_action "error"]) := by
  have h2 := List.nodup_reverse.mpr h
  simp only [MqttTopics.inbound, List.reverse_cons, List.reverse_nil, List.nil_append,
    List.cons_append, List.nodup_cons, List.mem_cons, List.mem_singleton, not_or,
    List.not_mem_nil, List.nodup_nil, not_false_eq_true, and_true] at h h2
  cases hcb : s._configUpdateReceivedCallback with
  | none =>
    simp [onMqttDataReceived, lockActionBlock, keypadAndQueryBlock, configActionBlock,
      comparePrefixedPath_resolve, h, h2, hv, hcb]
  | some cb =>
    cases hres : cb value <;>
    simp [onMqttDataReceived, lockActionBlock, keypadAndQueryBlock, configActionBlock,
      comparePrefixedPath_resolve, h, h2, hv, hcb, hres, configResultToken]

theorem lockResultToken_reserved (r : LockActionResult) :
    isReservedToken (lockResultToken r) = true := by
  cases r <;> decide

theorem configResultToken_reserved (r : ConfigUpdateResult) :
    isReservedToken (configResultToken r) = true := by
  cases r <;> decide

/-- Delivery of a single message. -/
theorem deliver_single (T : MqttTopics) (Q : QueryCommand) (s : NetworkLock)
    (topic value : String) :
    deliver T Q s [(topic, value)] = onMqttDataReceived T Q s topic value := by
  simp [deliver]

/-- A call that changes nothing visible outside and publishes nothing has no feedback. -/
theorem feedbackIgnored_of_silent (T : MqttTopics) (Q : QueryCommand) (s : NetworkLock)
    (topic value : String) (hsilent : publishes (onMqttDataReceived T Q s topic value).2 = [])
    (hfb : feedback s._mqttPath (onMqttDataReceived T Q s topic value).2 = []) :
    FeedbackIgnored T Q s topic value := by
  unfold FeedbackIgnored
  rw [hfb, hsilent]
  exact ⟨rfl, rfl⟩

theorem lock_action_feedbackIgnored (T : MqttTopics) (Q : QueryCommand) (s : NetworkLock)
    (h : T.inbound.Nodup) (value : String) :
    FeedbackIgnored T Q s (s._mqttPath ++ T.mqtt_topic_lock_action) value := by
  cases hv : isReservedToken value with
  | true =>
    have hr := (action_echo_step T Q s h value hv).1
    exact feedbackIgnored_of_silent T Q s _ value (by rw [hr]; rfl) (by rw [hr]; rfl)
  | false =>
    unfold FeedbackIgnored
    rw [lock_action_step T Q s h value hv]
    cases hcb : s._lockActionReceivedCallback with
    | none =>
      simp only [feedback, publishes, List.filterMap_cons, List.filterMap_nil, Effect.topic?,
        Effect.payload?]
      rw [deliver_single]
      exact ⟨by simp, (action_echo_step T Q s h "error" (by decide)).1⟩
    | some cb =>
      simp only [feedback, publishes, List.filterMap_cons, List.filterMap_nil, Effect.topic?,
        Effect.payload?]
      rw [deliver_single]
      exact ⟨by simp,
        (action_echo_step T Q s h _ (lockResultToken_reserved (cb value))).1⟩

theorem config_action_feedbackIgnored (T : MqttTopics) (Q : QueryCommand) (s : NetworkLock)
    (h : T.inbound.Nodup) (value : String) :
    FeedbackIgnored T Q s (s._mqttPath ++ T.mqtt_topic_config_action) value := by
  cases hv : isReservedToken value with
  | true =>
    have hr := (action_echo_step T Q s h value hv).2
    exact feedbackIgnored_of_silent T Q s _ value (by rw [hr]; rfl) (by rw [hr]; rfl)
  | false =>
    unfold FeedbackIgnored
    rw [config_action_step T Q s h value hv]
    cases hcb : s._configUpdateReceivedCallback with
    | none =>
      simp only [feedback, publishes, List.filterMap_cons, List.filterMap_nil, Effect.topic?,
        Effect.payload?]
      rw [deliver_single]
      exact ⟨by simp, (action_echo_step T Q s h "error" (by decide)).2⟩
    | some cb =>
      simp only [feedback, publishes, List.filterMap_cons, List.filterMap_nil, Effect.topic?,
        Effect.payload?]
      rw [deliver_single]
      exact ⟨by simp,
        (action_echo_step T Q s h _ (configResultToken_reserved (cb value))).2⟩

theorem reset_feedbackIgnored (T : MqttTopics) (Q : QueryCommand) (s : NetworkLock)
    (h : T.inbound.Nodup) (value : String) :
    FeedbackIgnored T Q s (s._mqttPath ++ T.mqtt_topic_reset) value := by
  have hr := reset_step T Q s h value
  by_cases hv : value = "1"
  · rw [if_pos hv] at hr
    exact feedbackIgnored_of_silent T Q s _ value (by rw [hr]; rfl) (by rw [hr]; rfl)
  · rw [if_neg hv] at hr
    exact feedbackIgnored_of_silent T Q s _ value (by rw [hr]; rfl) (by rw [hr]; rfl)

theorem staging_feedbackIgnored (T : MqttTopics) (Q : QueryCommand) (s : NetworkLock)
    (h : T.inbound.Nodup) (f : StagingField) (value : String) :
    FeedbackIgnored T Q s (s._mqttPath ++ stagingTopic T f) value := by
  have hr := staging_step T Q s h (f, value)
  exact feedbackIgnored_of_silent T Q s _ value (by rw [hr]; rfl) (by rw [hr]; rfl)

theorem query_feedbackIgnored (T : MqttTopics) (Q : QueryCommand) (s : NetworkLock)
    (h : T.inbound.Nodup) (c : QueryCategory) (value : String) :
    FeedbackIgnored T Q s (s._mqttPath ++ queryTopic T c) value := by
  by_cases hv : value = "1"
  · subst hv
    unfold FeedbackIgnored
    rw [query_step T Q s h c]
    simp only [feedback, publishes, List.filterMap_cons, List.filterMap_nil, Effect.topic?,
      Effect.payload?]
    rw [deliver_single]
    refine ⟨by simp, ?_⟩
    exact query_ignored T Q
      { s with _queryCommands := (s._queryCommands ||| queryBit Q c) % 256 } h c "0"
      (by decide)
  · have hr := query_ignored T Q s h c value hv
    exact feedbackIgnored_of_silent T Q s _ value (by rw [hr]; rfl) (by rw [hr]; rfl)

/-- The five publishes of a commit, delivered back, are ignored: the placeholder is dropped
and each staged field is set to the default it already holds. -/
theorem commit_feedbackIgnored (T : MqttTopics) (Q : QueryCommand) (s : NetworkLock)
    (h : T.inbound.Nodup) (value : String) :
    FeedbackIgnored T Q s (s._mqttPath ++ T.mqtt_topic_keypad_command_action) value := by
  cases hcb : s._keypadCommandReceivedReceivedCallback with
  | false =>
    have hr := commit_no_handler_step T Q s h hcb value
    exact feedbackIgnored_of_silent T Q s _ value (by rw [hr]; rfl) (by rw [hr]; rfl)
  | true =>
    by_cases hv : value = "--"
    · subst hv
      have hr := commit_placeholder_step T Q s h hcb
      exact feedbackIgnored_of_silent T Q s _ "--" (by rw [hr]; rfl) (by rw [hr]; rfl)
    · unfold FeedbackIgnored
      rw [commit_step T Q s h hcb value hv]
      have e0 : toString (0 : Int) = "0" := by decide
      have e1 : toString (1 : Int) = "1" := by decide
      simp only [feedback, publishes, List.filterMap_cons, List.filterMap_nil, Effect.topic?,
        Effect.payload?, e0, e1]
      refine ⟨by simp, ?_⟩
      have a0 : toUInt (atoi "0") = 0 := by decide
      have a1 : atoi "1" = 1 := by decide
      have s1 := commit_placeholder_step T Q
        { s with _keypadCommandId := 0, _keypadCommandName := "--",
                 _keypadCommandCode := "000000", _keypadCommandEnabled := 1 } h hcb
      have s2 := staging_step T Q
        { s with _keypadCommandId := 0, _keypadCommandName := "--",
                 _keypadCommandCode := "000000", _keypadCommandEnabled := 1 } h
        (StagingField.id, "0")
      have s3 := staging_step T Q
        { s with _keypadCommandId := 0, _keypadCommandName := "--",
                 _keypadCommandCode := "000000", _keypadCommandEnabled := 1 } h
        (StagingField.name, "--")
      have s4 := staging_step T Q
        { s with _keypadCommandId := 0, _keypadCommandName := "--",
                 _keypadCommandCode := "000000", _keypadCommandEnabled := 1 } h
        (StagingField.code, "000000")
      have s5 := staging_step T Q
        { s with _keypadCommandId := 0, _keypadCommandName := "--",
                 _keypadCommandCode := "000000", _keypadCommandEnabled := 1 } h
        (StagingField.enabled, "1")
      simp only [applyUpdate, stagingTopic, a0, a1] at s1 s2 s3 s4 s5
      simp only [deliver, s1, s2, s3, s4, s5, List.append_nil]

/-- C17 (no feedback loop): for every object and every inbound message, each message that
`onMqttDataReceived` itself published while handling it (result tokens on the lock and
config action topics, "0" on a query topic, the five post-commit values on the keypad
command topics), delivered back in emitted order on the same topic, invokes no handler,
emits no further publish and leaves the object (so the staged fields and the query bitset)
as the call left it; no publish of the call is left out of that delivery. -/
theorem no_feedback_loop (T : MqttTopics) (Q : QueryCommand) (s : NetworkLock)
    (h : T.inbound.Nodup) (topic value : String) :
    let r := onMqttDataReceived T Q s topic value
    deliver T Q r.1 (feedback s._mqttPath r.2) = (r.1, []) ∧
    (feedback s._mqttPath r.2).length = (publishes r.2).length := by
  intro r
  suffices hs : FeedbackIgnored T Q s topic value from ⟨hs.2, hs.1⟩
  by_cases hm : ∃ x, x ∈ T.inbound ∧ topic = s._mqttPath ++ x
  · obtain ⟨x, hx, rfl⟩ := hm
    simp only [MqttTopics.inbound, List.mem_cons, List.mem_singleton, List.not_mem_nil,
      or_false] at hx
    rcases hx with rfl | rfl | rfl | rfl | rfl | rfl | rfl | rfl | rfl | rfl | rfl | rfl
    · exact reset_feedbackIgnored T Q s h value
    · exact lock_action_feedbackIgnored T Q s h value
    · exact commit_feedbackIgnored T Q s h value
    · exact staging_feedbackIgnored T Q s h StagingField.id value
    · exact staging_feedbackIgnored T Q s h StagingField.name value
    · exact staging_feedbackIgnored T Q s h StagingField.code value
    · exact staging_feedbackIgnored T Q s h StagingField.enabled value
    · exact query_feedbackIgnored T Q s h QueryCategory.config value
    · exact query_feedbackIgnored T Q s h QueryCategory.lockstate value
    · exact query_feedbackIgnored T Q s h QueryCategory.keypad value
    · exact query_feedbackIgnored T Q s h QueryCategory.battery value
    · exact config_action_feedbackIgnored T Q s h value
  · have hno : ∀ x, x ∈ T.inbound → topic ≠ s._mqttPath ++ x :=
      fun x hx e => hm ⟨x, hx, e⟩
    have hr := unmatched_step T Q s topic value hno
    exact feedbackIgnored_of_silent T Q s topic value (by rw [hr]; rfl) (by rw [hr]; rfl)

/-- Witness for C17: the commit "add" at `stagedLock` publishes five values; delivered back
they leave the object as the commit left it and cause no call. -/
theorem no_feedback_loop_witness :
    specTopics.inbound.Nodup ∧
    feedback stagedLock._mqttPath
        (onMqttDataReceived specTopics specQuery stagedLock
          (stagedLock._mqttPath ++ specTopics.mqtt_topic_keypad_command_action) "add").2 =
      [("nukikeypad/command/action", "--"), ("nukikeypad/command/id", "0"),
       ("nukikeypad/command/name", "--"), ("nukikeypad/command/code", "000000"),
       ("nukikeypad/command/enabled", "1")] ∧
    deliver specTopics specQuery
        (onMqttDataReceived specTopics specQuery stagedLock
          (stagedLock._mqttPath ++ specTopics.mqtt_topic_keypad_command_action) "add").1
        (feedback stagedLock._mqttPath
          (onMqttDataReceived specTopics specQuery stagedLock
            (stagedLock._mqttPath ++ specTopics.mqtt_topic_keypad_command_action) "add").2) =
      ((onMqttDataReceived specTopics specQuery stagedLock
          (stagedLock._mqttPath ++ specTopics.mqtt_topic_keypad_command_action) "add").1, []) :=
  ⟨by decide, by decide,
   (no_feedback_loop specTopics specQuery stagedLock (by decide)
      (stagedLock._mqttPath ++ specTopics.mqtt_topic_keypad_command_action) "add").1⟩

/-! ## Battery group -/

theorem and_two_pos (b : Nat) : decide (b &&& 2 > 0) = b.testBit 1 := by
  have h1 : (b &&& 2).testBit 1 = b.testBit 1 := by
    rw [Nat.testBit_and]
    have : Nat.testBit 2 1 = true := by decide
    rw [this, Bool.and_true]
  have h0 : (b &&& 2).testBit 0 = false := by
    rw [Nat.testBit_and]
    have : Nat.testBit 2 0 = false := by decide
    rw [this, Bool.and_false]
  have hle : b &&& 2 ≤ 2 := Nat.and_le_right
  rw [← h1]
  generalize b &&& 2 = x at h0 hle
  interval_cases x
  · decide
  · exact absurd h0 (by decide)
  · decide

theorem level_byte (b : Nat) : ((b &&& 0b11111100) >>> 1) % 256 = (b &&& 0b11111100) >>> 1 := by
  have hle : b &&& 0b11111100 ≤ 0b11111100 := Nat.and_le_right
  rw [Nat.shiftRight_eq_div_pow]
  apply Nat.mod_eq_of_lt
  omega

theorem publishesOn_append (ts : List String) (a b : List Effect) :
    publishesOn ts (a ++ b) = publishesOn ts a ++ publishesOn ts b := by
  simp [publishesOn]

theorem publishesOn_ite (ts : List String) (c : Bool) (l : List Effect) :
    publishesOn ts (if c = true then l else []) = if c = true then publishesOn ts l else [] := by
  cases c <;> simp [publishesOn]

theorem publishesOn_publishState (T : MqttTopics) (ts : List String) (l : LockState)
    (h1 : T.mqtt_topic_lock_ha_state ∉ ts) (h2 : T.mqtt_topic_lock_binary_state ∉ ts) :
    publishesOn ts (publishState T l) = [] := by
  cases l <;> simp [publishState, publishesOn, Effect.topic?, h1, h2]

theorem publishesOn_ite_pair (ts : List String) (k : String) (c : Prop) [Decidable c]
    (a b : Bool) (hk : k ∉ ts) :
    publishesOn ts (if c then [Effect.publishBool k a] else [Effect.publishBool k b]) = [] := by
  by_cases hc : c <;> simp [hc, publishesOn, Effect.topic?, hk]

/-- The battery group of `publishKeyTurnerState`: its publishes on the three battery topics. -/
theorem battery_publishes (T : MqttTopics) (L : NukiLib) (s : NetworkLock)
    (c p : KeyTurnerState) (h : T.stateTopics.Nodup) :
    publishesOn [T.mqtt_topic_battery_critical, T.mqtt_topic_battery_charging,
        T.mqtt_topic_battery_level] (publishKeyTurnerState T L s c p).2 =
      if s._firstTunerStatePublish = true ∨ c.criticalBatteryState ≠ p.criticalBatteryState then
        [Effect.publishBool T.mqtt_topic_battery_critical (c.criticalBatteryState.testBit 0),
         Effect.publishBool T.mqtt_topic_battery_charging (c.criticalBatteryState.testBit 1),
         Effect.publishInt T.mqtt_topic_battery_level
           (((c.criticalBatteryState &&& 0b11111100) >>> 1 : Nat) : Int)]
      else [] := by
  have h2 := List.nodup_reverse.mpr h
  simp only [MqttTopics.stateTopics, List.reverse_cons, List.reverse_nil, List.nil_append,
    List.cons_append, List.nodup_cons, List.mem_cons, List.mem_singleton, not_or,
    List.not_mem_nil, List.nodup_nil, not_false_eq_true, and_true] at h h2
  have hps := publishesOn_publishState T [T.mqtt_topic_battery_critical,
    T.mqtt_topic_battery_charging, T.mqtt_topic_battery_level] c.lockState
    (by simp [h, h2]) (by simp [h, h2])
  have hkp := fun (c : Prop) [Decidable c] (a b : Bool) =>
    publishesOn_ite_pair [T.mqtt_topic_battery_critical, T.mqtt_topic_battery_charging,
      T.mqtt_topic_battery_level] T.mqtt_topic_battery_keypad_critical c a b
      (by simp [h, h2])
  have hpos : ∀ b : Nat, (0 < b % 2) = (b % 2 = 1) := fun b => propext (by omega)
  simp only [publishKeyTurnerState, publishesOn_append, publishesOn_ite, hps, hkp]
  simp [publishesOn, Effect.topic?, h, h2, and_two_pos, level_byte, hpos]

/-- C11 (battery unpacking and group gating): for every packed battery byte `b`,
`publishKeyTurnerState` publishes the three battery sub-fields either all together
(critical, charging, level, in that order) or not at all, all three exactly when the
first-publish flag holds or `b` differs from the previous snapshot's byte, with critical =
bit 0 of `b`, charging = bit 1 of `b` and level = (`b` AND 0b11111100) >> 1. -/
theorem battery_unpacking_and_gating (T : MqttTopics) (L : NukiLib) (s : NetworkLock)
    (c p : KeyTurnerState) (h : T.stateTopics.Nodup) :
    publishesOn [T.mqtt_topic_battery_critical, T.mqtt_topic_battery_charging,
        T.mqtt_topic_battery_level] (publishKeyTurnerState T L s c p).2 =
      if s._firstTunerStatePublish = true ∨ c.criticalBatteryState ≠ p.criticalBatteryState then
        [Effect.publishBool T.mqtt_topic_battery_critical (c.criticalBatteryState.testBit 0),
         Effect.publishBool T.mqtt_topic_battery_charging (c.criticalBatteryState.testBit 1),
         Effect.publishInt T.mqtt_topic_battery_level
           (((c.criticalBatteryState &&& 0b11111100) >>> 1 : Nat) : Int)]
      else [] :=
  battery_publishes T L s c p h

/-- Witness for C11: the byte 0b00000101 of `demoState` gives critical = true, charging =
false, level = 2. -/
theorem battery_unpacking_and_gating_witness :
    specTopics.stateTopics.Nodup ∧ demoState.criticalBatteryState = 0b00000101 ∧
    publishesOn [specTopics.mqtt_topic_battery_critical, specTopics.mqtt_topic_battery_charging,
        specTopics.mqtt_topic_battery_level]
        (publishKeyTurnerState specTopics demoLib demoLock demoState demoState).2 =
      [Effect.publishBool "battery/critical" true,
       Effect.publishBool "battery/charging" false,
       Effect.publishInt "battery/level" 2] := by
  have w := battery_unpacking_and_gating specTopics demoLib demoLock demoState demoState
    (by decide)
  refine ⟨by decide, rfl, ?_⟩
  rw [w]
  decide

/-! ## The authorization log -/

/-- The loop of `publishAuthorizationInfo` visits the first `n` entries only; it appends
their JSON objects and takes the authorized user from the first action among them, unless
one was found before. -/
theorem authorizationLoop_spec (L : NukiLib) (G : NukiLogLib) (entries : List LogEntry) :
    ∀ (n : Nat) (st : AuthorizationLoop),
      (authorizationLoop L G entries (n : Int) st).json =
        st.json ++ (entries.take n).map (logEntryJson L G) ∧
      (st.authFound = true →
        (authorizationLoop L G entries (n : Int) st).authFound = true ∧
        (authorizationLoop L G entries (n : Int) st).authId = st.authId ∧
        (authorizationLoop L G entries (n : Int) st).authName = st.authName) ∧
      (st.authFound = false →
        match (entries.take n).find? LogEntry.isAction with
        | some e =>
          (authorizationLoop L G entries (n : Int) st).authFound = true ∧
          (authorizationLoop L G entries (n : Int) st).authId = e.authId ∧
          (authorizationLoop L G entries (n : Int) st).authName = e.name
        | none =>
          (authorizationLoop L G entries (n : Int) st).authFound = false ∧
          (authorizationLoop L G entries (n : Int) st).authId = st.authId ∧
          (authorizationLoop L G entries (n : Int) st).authName = st.authName) := by
  induction entries with
  | nil =>
    intro n st
    simp [authorizationLoop]
  | cons log rest ih =>
    intro n st
    cases n with
    | zero => simp [authorizationLoop]
    | succ m =>
      have hi : ¬ (((m + 1 : Nat) : Int) ≤ 0) := by omega
      have hm : ((m + 1 : Nat) : Int) - 1 = (m : Int) := by omega
      obtain ⟨found, aid, aname, js⟩ := st
      simp only [authorizationLoop, hi, if_false, hm, List.take_succ_cons, List.map_cons,
        List.find?_cons]
      cases found with
      | true =>
        obtain ⟨j1, j2, -⟩ := ih m
          { authFound := true, authId := aid, authName := aname,
            json := js ++ [logEntryJson L G log] }
        have j2' := j2 rfl
        simp only [Bool.true_eq_false, and_false, if_false]
        refine ⟨?_, fun _ => j2', fun hc => absurd hc (by simp)⟩
        rw [j1]; simp
      | false =>
        by_cases ha : log.loggingType = LoggingType.LockAction ∨
            log.loggingType = LoggingType.KeypadAction
        · have hact : log.isAction = true := by
            simpa [LogEntry.isAction] using ha
          obtain ⟨j1, j2, -⟩ := ih m
            { authFound := true, authId := log.authId, authName := log.name,
              json := js ++ [logEntryJson L G log] }
          have j2' := j2 rfl
          simp only [ha, and_self, if_true, hact]
          refine ⟨?_, fun hc => absurd hc (by simp), fun _ => j2'⟩
          rw [j1]; simp
        · have hact : log.isAction = false := by
            simpa [LogEntry.isAction] using ha
          obtain ⟨j1, -, j3⟩ := ih m
            { authFound := false, authId := aid, authName := aname,
              json := js ++ [logEntryJson L G log] }
          have j3' := j3 rfl
          simp only [ha, false_and, if_false, hact]
          refine ⟨?_, fun hc => absurd hc (by simp), fun _ => j3'⟩
          rw [j1]; simp

/-- The loop does not look beyond the first `n` entries. -/
theorem authorizationLoop_take (L : NukiLib) (G : NukiLogLib) (entries : List LogEntry) :
    ∀ (n : Nat) (st : AuthorizationLoop),
      authorizationLoop L G (entries.take n) (n : Int) st =
        authorizationLoop L G entries (n : Int) st := by
  induction entries with
  | nil => intro n st; simp
  | cons log rest ih =>
    intro n st
    cases n with
    | zero => simp [authorizationLoop]
    | succ m =>
      have hi : ¬ (((m + 1 : Nat) : Int) ≤ 0) := by omega
      have hm : ((m + 1 : Nat) : Int) - 1 = (m : Int) := by omega
      simp only [List.take_succ_cons, authorizationLoop, hi, if_false, hm]
      exact ih m _

/-- The first action among the first `n` entries, given its position. -/
theorem find_first_action (entries : List LogEntry) :
    ∀ (n k : Nat) (e : LogEntry), k < n → entries[k]? = some e → e.isAction = true →
      (∀ j e', j < k → entries[j]? = some e' → e'.isAction = false) →
      (entries.take n).find? LogEntry.isAction = some e := by
  induction entries with
  | nil => intro n k e _ hk; simp at hk
  | cons log rest ih =>
    intro n k e hkn hk he hbefore
    obtain ⟨m, rfl⟩ : ∃ m, n = m + 1 := ⟨n - 1, by omega⟩
    cases k with
    | zero =>
      have : log = e := by simpa using hk
      subst this
      simp [List.find?_cons, he]
    | succ k =>
      have hlog : log.isAction = false := hbefore 0 log (by omega) (by simp)
      have hk' : rest[k]? = some e := by simpa using hk
      have := ih m k e (by omega) hk' he
        (fun j e' hj hje => hbefore (j + 1) e' (by omega) (by simpa using hje))
      simp [List.find?_cons, hlog, this]

/-- C12 (log derivation of the last authorized user): for every list of log entries (most
recent first), `publishAuthorizationInfo` looks at no more than the first five entries; if
`k` is the first position among them whose logging type is LockAction or KeypadAction, the
stored and the published authorized user (auth id, auth name) are entry `k`'s id and name;
if none of the first five qualifies, nothing is published on the auth-id and auth-name
topics. -/
theorem log_derivation (T : MqttTopics) (L : NukiLib) (G : NukiLogLib) (s : NetworkLock)
    (logEntries : List LogEntry)
    (hd1 : T.mqtt_topic_lock_log ≠ T.mqtt_topic_lock_auth_id)
    (hd2 : T.mqtt_topic_lock_log ≠ T.mqtt_topic_lock_auth_name) :
    let r := publishAuthorizationInfo T L G s logEntries
    r = publishAuthorizationInfo T L G s (logEntries.take 5) ∧
    (∀ (k : Nat) (e : LogEntry), k < 5 → logEntries[k]? = some e → e.isAction = true →
      (∀ j e', j < k → logEntries[j]? = some e' → e'.isAction = false) →
      r.1.authId = e.authId ∧ r.1.authName = e.name ∧
      r.2 =
        [Effect.publishString T.mqtt_topic_lock_log
           (G.serializeJsonArray ((logEntries.take 5).map (logEntryJson L G))),
         Effect.publishUInt T.mqtt_topic_lock_auth_id e.authId,
         Effect.publishString T.mqtt_topic_lock_auth_name e.name]) ∧
    ((∀ e, e ∈ logEntries.take 5 → e.isAction = false) →
      r.2 =
        [Effect.publishString T.mqtt_topic_lock_log
           (G.serializeJsonArray ((logEntries.take 5).map (logEntryJson L G)))] ∧
      publishedOn T.mqtt_topic_lock_auth_id r.2 = false ∧
      publishedOn T.mqtt_topic_lock_auth_name r.2 = false) := by
  intro r
  obtain ⟨j1, -, j3⟩ := authorizationLoop_spec L G logEntries 5
    { authFound := false, authId := s.authId, authName := "", json := [] }
  have j3' := j3 rfl
  simp only [List.nil_append] at j1
  refine ⟨?_, ?_, ?_⟩
  · show publishAuthorizationInfo T L G s logEntries = _
    unfold publishAuthorizationInfo
    rw [show ((5 : Int)) = ((5 : Nat) : Int) from rfl, authorizationLoop_take L G logEntries 5]
  · intro k e hk hke he hbefore
    have hfind := find_first_action logEntries 5 k e hk hke he hbefore
    rw [hfind] at j3'
    obtain ⟨f1, f2, f3⟩ := j3'
    show (publishAuthorizationInfo T L G s logEntries).1.authId = _ ∧
      (publishAuthorizationInfo T L G s logEntries).1.authName = _ ∧
      (publishAuthorizationInfo T L G s logEntries).2 = _
    unfold publishAuthorizationInfo
    simp only [show ((5 : Int)) = ((5 : Nat) : Int) from rfl, f1, f2, f3, j1, if_true]
    exact ⟨trivial, trivial, rfl⟩
  · intro hnone
    have hfind : (logEntries.take 5).find? LogEntry.isAction = none := by
      rw [List.find?_eq_none]
      intro e he
      simp [hnone e he]
    rw [hfind] at j3'
    obtain ⟨f1, -, -⟩ := j3'
    have hr : r.2 = [Effect.publishString T.mqtt_topic_lock_log
        (G.serializeJsonArray ((logEntries.take 5).map (logEntryJson L G)))] := by
      show (publishAuthorizationInfo T L G s logEntries).2 = _
      unfold publishAuthorizationInfo
      simp only [show ((5 : Int)) = ((5 : Nat) : Int) from rfl, f1, j1]
      rfl
    rw [hr]
    refine ⟨rfl, ?_, ?_⟩
    · simp [publishedOn, Effect.topic?, hd1]
    · simp [publishedOn, Effect.topic?, hd2]

theorem demoLogEntries_no_earlier_action (j : Nat) (e : LogEntry) (hj : j < 2)
    (hje : demoLogEntries[j]? = some e) : e.isAction = false := by
  have : j = 0 ∨ j = 1 := by omega
  rcases this with rfl | rfl
  · have : e = demoLog 50 11 "Door" LoggingType.DoorSensor := by
      simpa [demoLogEntries] using hje.symm
    subst this; rfl
  · have : e = demoLog 49 12 "Cal" (LoggingType.Other 3) := by
      simpa [demoLogEntries] using hje.symm
    subst this; rfl

/-- Witness for C12: of the five entries of `demoLogEntries` the third is the first lock or
keypad action; its id 13 and name "Alice" are stored and published, not those of the first
entry. -/
theorem log_derivation_witness :
    specTopics.mqtt_topic_lock_log ≠ specTopics.mqtt_topic_lock_auth_id ∧
    specTopics.mqtt_topic_lock_log ≠ specTopics.mqtt_topic_lock_auth_name ∧
    demoLogEntries[2]? = some (demoLog 48 13 "Alice" LoggingType.KeypadAction) ∧
    (publishAuthorizationInfo specTopics demoLib demoLogLib demoLock demoLogEntries).1.authId
      = 13 ∧
    (publishAuthorizationInfo specTopics demoLib demoLogLib demoLock demoLogEntries).1.authName
      = "Alice" ∧
    publishes (publishAuthorizationInfo specTopics demoLib demoLogLib demoLock
        demoLogEntries).2.tail =
      [Effect.publishUInt "authorizationId" 13,
       Effect.publishString "authorizationName" "Alice"] := by
  have w := (log_derivation specTopics demoLib demoLogLib demoLock demoLogEntries (by decide)
    (by decide)).2.1 2 (demoLog 48 13 "Alice" LoggingType.KeypadAction) (by decide) rfl rfl
    demoLogEntries_no_earlier_action
  refine ⟨by decide, by decide, rfl, w.1, w.2.1, ?_⟩
  rw [w.2.2]
  rfl

/-! ## The keypad listing -/

/-- The `for` loop publishes entry after entry on consecutive slots, starting at `index`. -/
theorem publishKeypadEntries_spec (T : MqttTopics) (entries : List KeypadEntry) :
    ∀ index : Nat, publishKeypadEntries T entries index =
      ((entries.enumFrom index).flatMap fun ie =>
          publishKeypadEntry (keypadSlotPath T ie.1) ie.2,
       entries.map keypadEntryJson, index + entries.length) := by
  induction entries with
  | nil => intro index; simp [publishKeypadEntries]
  | cons entry rest ih =>
    intro index
    simp only [publishKeypadEntries, ih (index + 1), List.enumFrom_cons, List.flatMap_cons,
      List.map_cons, List.length_cons]
    refine Prod.ext rfl (Prod.ext rfl ?_)
    show index + 1 + rest.length = index + (rest.length + 1)
    omega

/-- The `while` loop publishes the empty entry on the slots from `index` up to the maximum. -/
theorem publishEmptySlots_spec (T : MqttTopics) (m : Nat) :
    ∀ (fuel index : Nat), m - index ≤ fuel →
      publishEmptySlots T m fuel index =
        (List.range' index (m - index)).flatMap fun i =>
          publishKeypadEntry (keypadSlotPath T i) emptyKeypadEntry := by
  intro fuel
  induction fuel with
  | zero =>
    intro index hf
    have : m - index = 0 := by omega
    simp [publishEmptySlots, this]
  | succ fuel ih =>
    intro index hf
    by_cases hlt : index < m
    · have hsplit : m - index = (m - (index + 1)) + 1 := by omega
      rw [publishEmptySlots, if_pos hlt, ih (index + 1) (by omega), hsplit, List.range'_succ,
        List.flatMap_cons]
    · have : m - index = 0 := by omega
      rw [publishEmptySlots, if_neg hlt, this]
      simp

/-- C13, as stated, fails: with two entries and a configured maximum of 1, `publishKeypad`
renders slot 1 as well, which is outside the slot indices 0..m-1. -/
theorem keypad_slots_counterexample :
    publishedOn (keypadSlotPath specTopics 1 ++ "/id")
      (publishKeypad specTopics demoLogLib
        [demoKeypadEntry 1 "Alice", demoKeypadEntry 2 "Bob"] 1) = true ∧
    1 ∉ List.range 1 := by
  decide

/-- C13, amended: for every list of `n` keypad entries and every configured maximum `m`,
`publishKeypad` renders the per-slot sub-topics of the slots 0..n-1 with entry `i` on slot
`i`, then the aggregate JSON listing, then the slots n..m-1 with the canonical empty record
(id 0, disabled, empty name, zero timestamp, zero usage count); the slots rendered are
exactly the indices 0..max(n,m)-1, which is the stable set 0..m-1 whenever n <= m. -/
theorem keypad_slots (T : MqttTopics) (G : NukiLogLib) (entries : List KeypadEntry) (m : Nat) :
    publishKeypad T G entries m =
      (entries.enum.flatMap fun ie => publishKeypadEntry (keypadSlotPath T ie.1) ie.2) ++
      [Effect.publishString T.mqtt_topic_keypad_json
        (G.serializeJsonArray (entries.map keypadEntryJson))] ++
      ((List.range' entries.length (m - entries.length)).flatMap fun i =>
        publishKeypadEntry (keypadSlotPath T i) emptyKeypadEntry) ∧
    entries.enum.map Prod.fst ++ List.range' entries.length (m - entries.length) =
      List.range (max entries.length m) ∧
    (entries.length ≤ m →
      entries.enum.map Prod.fst ++ List.range' entries.length (m - entries.length) =
        List.range m) ∧
    (∀ i : Nat, publishKeypadEntry (keypadSlotPath T i) emptyKeypadEntry =
      [Effect.publishInt (keypadSlotPath T i ++ "/id") 0,
       Effect.publishBool (keypadSlotPath T i ++ "/enabled") false,
       Effect.publishString (keypadSlotPath T i ++ "/name") "",
       Effect.publishInt (keypadSlotPath T i ++ "/createdYear") 0,
       Effect.publishInt (keypadSlotPath T i ++ "/createdMonth") 0,
       Effect.publishInt (keypadSlotPath T i ++ "/createdDay") 0,
       Effect.publishInt (keypadSlotPath T i ++ "/createdHour") 0,
       Effect.publishInt (keypadSlotPath T i ++ "/createdMin") 0,
       Effect.publishInt (keypadSlotPath T i ++ "/createdSec") 0,
       Effect.publishInt (keypadSlotPath T i ++ "/lockCount") 0]) := by
  have hidx : entries.enum.map Prod.fst ++ List.range' entries.length (m - entries.length) =
      List.range (max entries.length m) := by
    have happ := List.range'_append_1 0 entries.length (m - entries.length)
    rw [Nat.zero_add] at happ
    rw [List.enum_map_fst, List.range_eq_range', List.range_eq_range', happ]
    congr 1
    omega
  refine ⟨?_, hidx, ?_, fun _ => rfl⟩
  · unfold publishKeypad
    rw [publishKeypadEntries_spec T entries 0]
    simp only [Nat.zero_add]
    rw [publishEmptySlots_spec T m m entries.length (by omega)]
    rfl
  · intro hle
    rw [hidx, Nat.max_eq_right hle]

/-- Witness for the amended C13: one entry and a maximum of 3 give the slots 0, 1, 2, with
the entry on slot 0 and the empty record on slots 1 and 2. -/
theorem keypad_slots_witness :
    [demoKeypadEntry 1 "Alice"].length ≤ 3 ∧
    [demoKeypadEntry 1 "Alice"].enum.map Prod.fst ++
        List.range' [demoKeypadEntry 1 "Alice"].length (3 - [demoKeypadEntry 1 "Alice"].length) =
      List.range 3 ∧
    (publishKeypad specTopics demoLogLib [demoKeypadEntry 1 "Alice"] 3).length = 31 := by
  have w := keypad_slots specTopics demoLogLib [demoKeypadEntry 1 "Alice"] 3
  refine ⟨by decide, w.2.2.1 (by decide), ?_⟩
  rw [w.1]
  decide

/-! ## Path building: result and footprint -/

theorem copyStoredPathWrites_spec (pfx tail : List Char) (hpn : NUL ∉ pfx)
    (htail : ∀ c rest, tail = c :: rest → c = NUL) (k : Nat) :
    copyStoredPathWrites (pfx ++ tail) k = List.range' k pfx.length := by
  induction pfx generalizing k with
  | nil =>
    cases tail with
    | nil => simp [copyStoredPathWrites]
    | cons c rest => simp [copyStoredPathWrites, htail c rest rfl]
  | cons c pfx ih =>
    have hc : c ≠ NUL := fun e => hpn (by simp [e])
    have hpn' : NUL ∉ pfx := fun hm => hpn (List.mem_cons_of_mem _ hm)
    show copyStoredPathWrites (c :: (pfx ++ tail)) k = _
    rw [copyStoredPathWrites, if_neg hc, ih hpn' (k + 1), List.length_cons, List.range'_succ]

/-- The accesses of the `while` loop: it reads `path` and writes `outPath` once per
iteration, at consecutive indices, until `i` reaches the copied terminator. -/
theorem appendSubPathAccess_spec (pfx sfx : List Char) (after : CharBuffer) (hp : pfx ≠ [])
    (hpn : NUL ∉ pfx) (hsn : NUL ∉ sfx) (n : Nat) :
    ∀ (k : Nat) (out : CharBuffer) (fuel : Nat), k + n = pfx.length + sfx.length →
      (∀ j, j < pfx.length + k →
        out j = if j < pfx.length then pfx.getD j NUL
                else cString sfx after (j - pfx.length)) →
      n < fuel →
      appendSubPathAccess (cString sfx after) fuel out k (pfx.length + k) =
        some (List.range' k n, List.range' (pfx.length + k) n) := by
  have hpos : 0 < pfx.length := List.length_pos.mpr hp
  induction n with
  | zero =>
    intro k out fuel hk hinv hfuel
    obtain ⟨f, rfl⟩ : ∃ f, fuel = f + 1 := ⟨fuel - 1, by omega⟩
    have hkk : k = pfx.length + sfx.length := by omega
    have hread : out k = NUL := by
      rw [hinv k (by omega), if_neg (by omega), hkk]
      simp [cString]
    rw [appendSubPathAccess, if_neg (by simp [hread])]
    simp
  | succ n ih =>
    intro k out fuel hk hinv hfuel
    obtain ⟨f, rfl⟩ : ∃ f, fuel = f + 1 := ⟨fuel - 1, by omega⟩
    have hread : out k ≠ NUL := by
      rw [hinv k (by omega)]
      by_cases hkp : k < pfx.length
      · rw [if_pos hkp]; exact getD_ne_NUL hpn hkp
      · rw [if_neg hkp, cString_lt sfx after (by omega)]
        exact getD_ne_NUL hsn (by omega)
    have hstep := ih (k + 1)
      (Function.update out (pfx.length + k) (cString sfx after k)) f (by omega)
      (by
        intro j hj
        by_cases hjk : j = pfx.length + k
        · subst hjk
          rw [Function.update_same, if_neg (by omega)]
          congr 1; omega
        · rw [Function.update_noteq hjk]
          exact hinv j (by omega))
      (by omega)
    rw [show pfx.length + (k + 1) = pfx.length + k + 1 by omega] at hstep
    rw [appendSubPathAccess, if_pos hread, hstep]
    simp [List.range'_succ]

/-- With too little fuel the `while` loop has not stopped: it needs one iteration for every
character of the stored path and of the sub-path. -/
theorem appendSubPath_none (pfx sfx : List Char) (after : CharBuffer) (hp : pfx ≠ [])
    (hpn : NUL ∉ pfx) (hsn : NUL ∉ sfx) (fuel : Nat) :
    ∀ (k n : Nat) (out : CharBuffer), k + n = pfx.length + sfx.length →
      (∀ j, j < pfx.length + k →
        out j = if j < pfx.length then pfx.getD j NUL
                else cString sfx after (j - pfx.length)) →
      fuel ≤ n →
      appendSubPath (cString sfx after) fuel out k (pfx.length + k) = none := by
  have hpos : 0 < pfx.length := List.length_pos.mpr hp
  induction fuel with
  | zero => intro k n out _ _ _; rfl
  | succ f ih =>
    intro k n out hk hinv hfuel
    have hread : out k ≠ NUL := by
      rw [hinv k (by omega)]
      by_cases hkp : k < pfx.length
      · rw [if_pos hkp]; exact getD_ne_NUL hpn hkp
      · rw [if_neg hkp, cString_lt sfx after (by omega)]
        exact getD_ne_NUL hsn (by omega)
    have hstep := ih (k + 1) (n - 1)
      (Function.update out (pfx.length + k) (cString sfx after k)) (by omega)
      (by
        intro j hj
        by_cases hjk : j = pfx.length + k
        · subst hjk
          rw [Function.update_same, if_neg (by omega)]
          congr 1; omega
        · rw [Function.update_noteq hjk]
          exact hinv j (by omega))
      (by omega)
    rw [show pfx.length + (k + 1) = pfx.length + k + 1 by omega] at hstep
    rw [appendSubPath, if_pos hread, hstep]

/-- The accesses of `buildMqttPath` for a non-empty stored path of length `p` and a sub-path
of length `s`: it reads `path` at the indices 0..p+s-1 and writes `outPath` at the indices
0..2p+s-1 and then at p+s+1. -/
theorem buildMqttPathAccess_spec (pfx sfx tail : List Char) (after out0 : CharBuffer)
    (fuel : Nat) (hp : pfx ≠ []) (hpn : NUL ∉ pfx) (hsn : NUL ∉ sfx)
    (htail : ∀ c rest, tail = c :: rest → c = NUL)
    (hfuel : pfx.length + sfx.length < fuel) :
    buildMqttPathAccess (pfx ++ tail) (cString sfx after) out0 fuel =
      some (List.range (pfx.length + sfx.length),
        List.range (2 * pfx.length + sfx.length) ++ [pfx.length + sfx.length + 1]) := by
  obtain ⟨out1, c1, -, c3⟩ := copyStoredPath_spec pfx tail hpn htail out0 0
  have hinv : ∀ j, j < pfx.length + 0 →
      out1 j = if j < pfx.length then pfx.getD j NUL
               else cString sfx after (j - pfx.length) := by
    intro j hj
    have hj' : j < pfx.length := by omega
    rw [if_pos hj']
    have := c3 j hj'
    rwa [Nat.zero_add] at this
  obtain ⟨out2, a1, -⟩ := appendSubPath_spec pfx sfx after hp hpn hsn
    (pfx.length + sfx.length) 0 out1 fuel (by omega) hinv hfuel
  have b1 := appendSubPathAccess_spec pfx sfx after hp hpn hsn
    (pfx.length + sfx.length) 0 out1 fuel (by omega) hinv hfuel
  rw [Nat.add_zero] at a1 b1
  unfold buildMqttPathAccess
  simp only [c1, Nat.zero_add, a1, b1, copyStoredPathWrites_spec pfx tail hpn htail 0]
  have happ := List.range'_append_1 0 pfx.length (pfx.length + sfx.length)
  rw [Nat.zero_add] at happ
  have e1 : List.range' 0 pfx.length ++ List.range' pfx.length (pfx.length + sfx.length) =
      List.range (2 * pfx.length + sfx.length) := by
    rw [happ, List.range_eq_range']
    congr 1
    omega
  simp only [e1, List.range_eq_range']

/-- When the stored path and the sub-path together have 500 characters or more,
`buildMqttPath` does not stop within 500 iterations. -/
theorem buildMqttPath_none (pfx sfx tail : List Char) (after out0 : CharBuffer) (fuel : Nat)
    (hp : pfx ≠ []) (hpn : NUL ∉ pfx) (hsn : NUL ∉ sfx)
    (htail : ∀ c rest, tail = c :: rest → c = NUL)
    (hfuel : fuel ≤ pfx.length + sfx.length) :
    buildMqttPath (pfx ++ tail) (cString sfx after) out0 fuel = none := by
  obtain ⟨out1, c1, -, c3⟩ := copyStoredPath_spec pfx tail hpn htail out0 0
  have hinv : ∀ j, j < pfx.length + 0 →
      out1 j = if j < pfx.length then pfx.getD j NUL
               else cString sfx after (j - pfx.length) := by
    intro j hj
    have hj' : j < pfx.length := by omega
    rw [if_pos hj']
    have := c3 j hj'
    rwa [Nat.zero_add] at this
  have a1 := appendSubPath_none pfx sfx after hp hpn hsn fuel 0 (pfx.length + sfx.length) out1
    (by omega) hinv hfuel
  rw [Nat.add_zero] at a1
  unfold buildMqttPath
  simp only [c1, Nat.zero_add, a1]

/-- C14 (topic resolution and matching): for every non-empty stored path without NUL, every
sub-path, arbitrary initial contents of the output buffer and arbitrary characters after
the sub-path's terminator, `buildMqttPath` returns (given fuel for its p+s iterations) and
leaves in the output buffer the NUL-terminated string "stored path followed by sub-path",
character for character.  Consequently `comparePrefixedPath(fullPath, subPath)`, whenever
the result fits its scratch buffer of 500 characters, is true if and only if `fullPath` is
the stored path followed by the sub-path, and false otherwise. -/
theorem topic_resolution_and_matching (_mqttPath subPath fullPath : String) (tail : List Char)
    (afterSub afterFull out0 scratch : CharBuffer) (fuel : Nat)
    (hp : _mqttPath ≠ "") (hpn : NUL ∉ _mqttPath.data) (hsn : NUL ∉ subPath.data)
    (hfn : NUL ∉ fullPath.data) (htail : ∀ c rest, tail = c :: rest → c = NUL)
    (hfuel : _mqttPath.length + subPath.length < fuel) :
    (∃ out, buildMqttPath (_mqttPath.data ++ tail) (cString subPath.data afterSub) out0 fuel =
        some (out, _mqttPath.length + subPath.length,
          2 * _mqttPath.length + subPath.length) ∧
      HoldsCString out (_mqttPath ++ subPath).data) ∧
    (2 * _mqttPath.length + subPath.length ≤ 500 →
      _mqttPath.length + subPath.length + 1 < 500 →
      (comparePrefixedPathBuf (_mqttPath.data ++ tail) (cString fullPath.data afterFull)
          (cString subPath.data afterSub) scratch = some true ↔
        fullPath = _mqttPath ++ subPath) ∧
      (comparePrefixedPathBuf (_mqttPath.data ++ tail) (cString fullPath.data afterFull)
          (cString subPath.data afterSub) scratch = some false ↔
        fullPath ≠ _mqttPath ++ subPath)) := by
  have hp' : _mqttPath.data ≠ [] := fun e => hp (String.ext e)
  refine ⟨?_, ?_⟩
  · obtain ⟨out, b1, b2, b3⟩ := buildMqttPath_spec _mqttPath.data subPath.data tail afterSub
      out0 fuel hp' hpn hsn htail hfuel
    refine ⟨out, b1, ?_, ?_⟩
    · intro j hj
      rw [String.data_append] at hj ⊢
      exact b2 j (by simpa using hj)
    · rw [String.data_append, List.length_append]
      exact b3
  · intro h1 h2
    have hcmp := comparePrefixedPathBuf_eq _mqttPath fullPath subPath tail afterFull afterSub
      scratch hp hpn hsn hfn htail h1 h2
    constructor
    · rw [hcmp]
      simp [comparePrefixedPath]
    · rw [hcmp]
      simp [comparePrefixedPath]

/-- Witness for C14: the stored path "nuki" and the sub-path "/lock/action", with a scratch
buffer full of 'x' and 'y' after the sub-path's terminator. -/
theorem topic_resolution_and_matching_witness :
    comparePrefixedPathBuf ("nuki".data ++ [NUL]) (cString "nuki/lock/action".data fun _ => 'z')
        (cString "/lock/action".data fun _ => 'y') (fun _ => 'x') = some true ↔
      "nuki/lock/action" = "nuki" ++ "/lock/action" :=
  ((topic_resolution_and_matching "nuki" "/lock/action" "nuki/lock/action" [NUL]
    (fun _ => 'y') (fun _ => 'z') (fun _ => 'x') (fun _ => 'x') 500 (by decide) (by decide)
    (by decide) (by decide) (by intro c rest e; cases e; rfl) (by decide)).2 (by decide)
    (by decide)).1

/-- C19 (buffer footprint of topic matching): for a stored path of length p >= 1 and a
sub-path of length s, `buildMqttPath` reads the sub-path at every index 0..p+s-1, that is
up to p-1 positions past its terminator at index s, and writes the output at the indices
0..2p+s-1 and p+s+1, so up to max(2p+s-1, p+s+1); hence `comparePrefixedPath`, whose
scratch buffer has 500 characters, writes only inside that buffer exactly when
max(2p+s-1, p+s+1) < 500. -/
theorem buffer_footprint (pfx sfx tail : List Char) (after out0 full scratch : CharBuffer)
    (fuel : Nat) (hp : pfx ≠ []) (hpn : NUL ∉ pfx) (hsn : NUL ∉ sfx)
    (htail : ∀ c rest, tail = c :: rest → c = NUL)
    (hfuel : pfx.length + sfx.length < fuel) :
    buildMqttPathAccess (pfx ++ tail) (cString sfx after) out0 fuel =
      some (List.range (pfx.length + sfx.length),
        List.range (2 * pfx.length + sfx.length) ++ [pfx.length + sfx.length + 1]) ∧
    (∀ r, r ∈ List.range (pfx.length + sfx.length) ↔ r ≤ sfx.length + (pfx.length - 1)) ∧
    (∀ w, w ∈ List.range (2 * pfx.length + sfx.length) ++ [pfx.length + sfx.length + 1] →
      w ≤ max (2 * pfx.length + sfx.length - 1) (pfx.length + sfx.length + 1)) ∧
    max (2 * pfx.length + sfx.length - 1) (pfx.length + sfx.length + 1) ∈
      List.range (2 * pfx.length + sfx.length) ++ [pfx.length + sfx.length + 1] ∧
    ((∀ w, w ∈ List.range (2 * pfx.length + sfx.length) ++ [pfx.length + sfx.length + 1] →
        w < 500) ↔
      max (2 * pfx.length + sfx.length - 1) (pfx.length + sfx.length + 1) < 500) ∧
    ((comparePrefixedPathBuf (pfx ++ tail) full (cString sfx after) scratch).isSome = true ↔
      max (2 * pfx.length + sfx.length - 1) (pfx.length + sfx.length + 1) < 500) := by
  have hpos : 0 < pfx.length := List.length_pos.mpr hp
  have hmem : max (2 * pfx.length + sfx.length - 1) (pfx.length + sfx.length + 1) ∈
      List.range (2 * pfx.length + sfx.length) ++ [pfx.length + sfx.length + 1] := by
    rw [List.mem_append, List.mem_range, List.mem_singleton]
    by_cases h2 : 2 ≤ pfx.length
    · left
      rw [Nat.max_eq_left (by omega)]
      omega
    · right
      rw [Nat.max_eq_right (by omega)]
  have hle : ∀ w, w ∈ List.range (2 * pfx.length + sfx.length) ++
      [pfx.length + sfx.length + 1] →
      w ≤ max (2 * pfx.length + sfx.length - 1) (pfx.length + sfx.length + 1) := by
    intro w hw
    rw [List.mem_append, List.mem_range, List.mem_singleton] at hw
    rcases hw with hw | hw
    · exact Nat.le_trans (by omega) (Nat.le_max_left _ _)
    · rw [hw]; exact Nat.le_max_right _ _
  refine ⟨buildMqttPathAccess_spec pfx sfx tail after out0 fuel hp hpn hsn htail hfuel, ?_,
    hle, hmem, ?_, ?_⟩
  · intro r
    rw [List.mem_range]
    omega
  · constructor
    · intro hall
      exact hall _ hmem
    · intro hb w hw
      exact Nat.lt_of_le_of_lt (hle w hw) hb
  · by_cases hfit : pfx.length + sfx.length < 500
    · obtain ⟨out, b1, -, -⟩ := buildMqttPath_spec pfx sfx tail after scratch 500 hp hpn hsn
        htail hfit
      unfold comparePrefixedPathBuf
      rw [b1]
      simp only []
      by_cases hin : 2 * pfx.length + sfx.length ≤ 500 ∧ pfx.length + sfx.length + 1 < 500
      · rw [if_pos hin]
        simp only [Option.isSome_some, true_iff]
        rw [Nat.max_lt]
        omega
      · rw [if_neg hin]
        simp only [Option.isSome_none, Bool.false_eq_true, false_iff]
        rw [Nat.max_lt]
        omega
    · have b1 := buildMqttPath_none pfx sfx tail after scratch 500 hp hpn hsn htail
        (by omega)
      unfold comparePrefixedPathBuf
      rw [b1]
      simp only [Option.isSome_none, Bool.false_eq_true, false_iff]
      rw [Nat.max_lt]
      omega

/-- Witness for C19: the stored path "nuki" (p = 4) and the sub-path "/ab" (s = 3): reads
at 0..6, writes at 0..10 and at 8. -/
theorem buffer_footprint_witness :
    buildMqttPathAccess ("nuki".data ++ [NUL]) (cString "/ab".data fun _ => 'y')
        (fun _ => 'x') 500 =
      some ([0, 1, 2, 3, 4, 5, 6], [0, 1, 2, 3, 4, 5, 6, 7, 8, 9, 10, 8]) :=
  (buffer_footprint "nuki".data "/ab".data [NUL] (fun _ => 'y') (fun _ => 'x')
    (fun _ => 'z') (fun _ => 'x') 500 (by decide) (by decide) (by decide)
    (by intro c rest e; cases e; rfl) (by decide)).1

end NukiHub
